import Mathlib

/-!
# Website Watchdog — shallow embedding and verification

A shallow embedding of the incident-lifecycle core of the Website Watchdog
monitor (`watchdog.py`, `alerter.py`): the check-result classifier
(`Watchdog.check_target`), the persistence primitives (`WatchdogDB`), the
alert dispatch (`Alerter`), and the per-result state machine
(`Watchdog.handle_result`), together with theorems about the incident
invariants, escalation behaviour and error handling.

Database rows become Lean structures, the SQLite store becomes an explicit
`DB` value threaded through the operations, timestamps become `Nat` values
supplied by the caller, and notification sends become events parameterised
by an environment `SendEnv` that decides whether each transport succeeds.
-/

namespace Watchdog

/-- Check status taxonomy: the `status` strings recorded by
`Watchdog.check_target` (`'success' | 'failure' | 'timeout' | 'error'`). -/
inductive Status where
  | success
  | failure
  | timeout
  | error
deriving DecidableEq, Repr

/-- Incident status: the `status` column of the `incidents` table,
`'open'` (constructor `opened`, since `open` is a Lean keyword) or
`'resolved'`. -/
inductive IncStatus where
  | opened
  | resolved
deriving DecidableEq, Repr

/-- One row of the `incidents` table.  Columns as used by `watchdog.py` and
`status.py`: id, target_id, started_at, status, failure_count,
last_check_id, resolved_at, and the three per-channel alerted booleans. -/
structure Incident where
  id : Nat
  targetId : Nat
  startedAt : Nat
  status : IncStatus
  failureCount : Nat
  lastCheckId : Nat
  resolvedAt : Option Nat
  slackAlerted : Bool
  emailAlerted : Bool
  smsAlerted : Bool
deriving DecidableEq, Repr

/-- The persistent store as seen by the incident state machine: the list of
incident rows (in insertion order) and the next AUTOINCREMENT id.  The
`targets` and `checks` tables are append-only inputs/outputs of the parts
modelled here and are not needed by `handle_result`. -/
structure DB where
  incidents : List Incident
  nextId : Nat
deriving DecidableEq, Repr

/-- A fresh store (SQLite AUTOINCREMENT ids start at 1). -/
def DB.empty : DB := { incidents := [], nextId := 1 }

/-- The WHERE clause of `WatchdogDB.get_open_incident`:
`target_id = ? AND status = 'open'`. -/
def isOpenFor (tid : Nat) (i : Incident) : Bool :=
  i.targetId == tid && i.status == IncStatus.opened

/-- The open incidents of one target, in row order: the rows satisfying
`target_id = ? AND status = 'open'` of `WatchdogDB.get_open_incident`. -/
def openIncidents (db : DB) (tid : Nat) : List Incident :=
  db.incidents.filter (isOpenFor tid)

/-- The number of open incidents of one target. -/
def openCount (db : DB) (tid : Nat) : Nat :=
  (openIncidents db tid).length

/-- One comparison step of selecting the latest-started row. -/
def mrStep (acc : Option Incident) (i : Incident) : Option Incident :=
  match acc with
  | none => some i
  | some j => if j.startedAt < i.startedAt then some i else some j

/-- `ORDER BY started_at DESC LIMIT 1` + `fetchone`: the row with the
greatest `started_at` among a candidate list, keeping the earlier row on
ties (SQLite leaves tie order unspecified), `none` on the empty list. -/
def mostRecent (l : List Incident) : Option Incident :=
  l.foldl mrStep none

/-- `WatchdogDB.get_open_incident`: the most recently started open incident
of the target, if any. -/
def getOpenIncident (db : DB) (tid : Nat) : Option Incident :=
  mostRecent (openIncidents db tid)

/-- `WatchdogDB.create_incident`: insert a row with `failure_count = 1` and
the given `last_check_id`; returns the updated store and `lastrowid`.
Column defaults not set by the INSERT come from the schema as described in
the spec's data model (`db/schema.sql` is not part of the sources given):
`status = 'open'`, `started_at = CURRENT_TIMESTAMP` (the caller-supplied
`now`), `resolved_at` NULL, the three alerted booleans 0. -/
def createIncident (db : DB) (now tid checkId : Nat) : DB × Nat :=
  let inc : Incident :=
    { id := db.nextId
      targetId := tid
      startedAt := now
      status := IncStatus.opened
      failureCount := 1
      lastCheckId := checkId
      resolvedAt := none
      slackAlerted := false
      emailAlerted := false
      smsAlerted := false }
  ({ incidents := db.incidents ++ [inc], nextId := db.nextId + 1 }, db.nextId)

/-- `WatchdogDB.update_incident`: `SET last_check_id = ?` on the row with
the given id, additionally `failure_count = failure_count + 1` when
`increment_count` is true. -/
def updateIncident (db : DB) (incId checkId : Nat) (incrementCount : Bool) : DB :=
  { db with
    incidents := db.incidents.map (fun i =>
      if i.id == incId then
        if incrementCount then
          { i with lastCheckId := checkId, failureCount := i.failureCount + 1 }
        else
          { i with lastCheckId := checkId }
      else i) }

/-- `WatchdogDB.resolve_incident`: `SET status = 'resolved', resolved_at =
CURRENT_TIMESTAMP` on the row with the given id. -/
def resolveIncident (db : DB) (now incId : Nat) : DB :=
  { db with
    incidents := db.incidents.map (fun i =>
      if i.id == incId then
        { i with status := IncStatus.resolved, resolvedAt := some now }
      else i) }

/-- Set the `{channel}_alerted` column on one row, for the three columns
that exist in the schema. -/
def setAlerted (i : Incident) (channel : String) : Incident :=
  if channel = "slack" then { i with slackAlerted := true }
  else if channel = "email" then { i with emailAlerted := true }
  else if channel = "sms" then { i with smsAlerted := true }
  else i

/-- `WatchdogDB.mark_alert_sent`: the UPDATE targets the column named by
interpolating the channel into the SQL text (`f"{channel}_alerted"`).  For
a channel outside {slack, email, sms} the named column does not exist and
SQLite raises an OperationalError, modelled as `none`. -/
def markAlertSent (db : DB) (incId : Nat) (channel : String) : Option DB :=
  if channel = "slack" ∨ channel = "email" ∨ channel = "sms" then
    some { db with
           incidents := db.incidents.map (fun i =>
             if i.id == incId then setAlerted i channel else i) }
  else none

/-! ## Result classifier (`Watchdog.check_target`) -/

/-- One row of the `targets` table as consumed by `check_target`:
name, url, method, expected_status, timeout, optional `contains`
substring, and the JSON-decoded `alert_channels` list. -/
structure Target where
  id : Nat
  name : String
  url : String
  method : String
  expectedStatus : Nat
  timeout : Nat
  contains : Option String
  alertChannels : List String
deriving DecidableEq, Repr

/-- Outcome of the HTTP probe, the external collaborator of
`check_target`: a completed response (status code and body), a
`requests.Timeout`, or any other exception with its description. -/
inductive ProbeOutcome where
  | completed (statusCode : Nat) (body : String)
  | timedOut
  | failed (desc : String)
deriving DecidableEq, Repr

/-- The result dict built by `check_target` and consumed by
`handle_result` and the alerter.  `statusCode` and `responseTime` are
`none` on the timeout/error branches, where the dict omits those keys. -/
structure CheckResult where
  targetId : Nat
  name : String
  status : Status
  statusCode : Option Nat
  responseTime : Option Nat
  errorMessage : Option String
  checkId : Nat
  alertChannels : List String
deriving DecidableEq, Repr

/-- Python's substring test `sub in body` (`False` branch of
`not in`): containment of the character sequence. -/
def strContains (body sub : String) : Bool :=
  decide (sub.data <:+: body.data)

/-- An ASCII single-quote character, used in the content-mismatch
message. -/
def sq : String := (Char.ofNat 39).toString

/-- `f"Timeout after {target['timeout']}s"`. -/
def timeoutMsg (t : Nat) : String :=
  "Timeout after " ++ toString t ++ "s"

/-- `f"Expected {target['expected_status']}, got {status_code}"`. -/
def statusMsg (expected actual : Nat) : String :=
  "Expected " ++ toString expected ++ ", got " ++ toString actual

/-- `f"Expected content '{target['contains']}' not found"`. -/
def contentMsg (s : String) : String :=
  "Expected content " ++ sq ++ s ++ sq ++ " not found"

/-- `Watchdog.check_target`, classification part.  The probe execution and
`record_check` I/O are externalised: the caller supplies the probe
outcome, the elapsed milliseconds it measured, and the id `record_check`
returned.  Branch structure of the source: the `try` body checks the
status code, then — only when `target['contains']` is truthy, i.e. a
non-empty string — the body substring; `except requests.Timeout` yields
`timeout`; `except Exception` yields `error`. -/
def checkTarget (t : Target) (o : ProbeOutcome) (elapsedMs checkId : Nat) :
    CheckResult :=
  let base : CheckResult :=
    { targetId := t.id
      name := t.name
      status := Status.success
      statusCode := none
      responseTime := none
      errorMessage := none
      checkId := checkId
      alertChannels := t.alertChannels }
  match o with
  | ProbeOutcome.timedOut =>
      { base with status := Status.timeout
                  errorMessage := some (timeoutMsg t.timeout) }
  | ProbeOutcome.failed d =>
      { base with status := Status.error, errorMessage := some d }
  | ProbeOutcome.completed code body =>
      if code ≠ t.expectedStatus then
        { base with status := Status.failure
                    statusCode := some code
                    responseTime := some elapsedMs
                    errorMessage := some (statusMsg t.expectedStatus code) }
      else
        match t.contains with
        | some s =>
            if s ≠ "" ∧ ¬ strContains body s then
              { base with status := Status.failure
                          statusCode := some code
                          responseTime := some elapsedMs
                          errorMessage := some (contentMsg s) }
            else
              { base with statusCode := some code
                          responseTime := some elapsedMs }
        | none =>
            { base with statusCode := some code
                        responseTime := some elapsedMs }

/-! ## Alerter (`alerter.py`) -/

/-- A notification channel. -/
inductive Channel where
  | slack
  | email
  | sms
deriving DecidableEq, Repr

/-- What kind of notification an action is: the initial alert at incident
creation, an escalation at a threshold, or the recovery notice. -/
inductive AKind where
  | initial
  | escalation
  | recovery
deriving DecidableEq, Repr

/-- A dispatched notification action: channel, kind, and the failure count
it reports. -/
structure Action where
  channel : Channel
  kind : AKind
  failureCount : Nat
deriving DecidableEq, Repr

/-- Which store mutation a commit event records. -/
inductive CommitKind where
  | createInc
  | updateInc
  | resolveInc
  | markAlert (channel : String)
deriving DecidableEq, Repr

/-- One event of a `handle_result` transition: a committed store mutation,
or an attempted notification send with its transport outcome. -/
inductive Event where
  | commit (incId : Nat) (k : CommitKind)
  | send (a : Action) (ok : Bool)
deriving DecidableEq, Repr

/-- The transport environment: whether a given send succeeds.  The
alerter's `_send_slack` / `_send_email` / `_send_sms` wrap their transport
in `try/except Exception` (or skip on missing configuration), so an
attempt never raises; only the logged outcome differs. -/
def SendEnv : Type := Action → Bool

/-- The `alerts:` section of the YAML config as read by `alerter.py`, with
the source's `.get` defaults: slack `enabled` default `True`; email
`enabled` default `True`, `escalate_after` default 3; sms `enabled`
default `False`, `escalate_after` default 5. -/
structure AlertConfig where
  slackEnabled : Bool := true
  emailEnabled : Bool := true
  emailThreshold : Nat := 3
  smsEnabled : Bool := false
  smsThreshold : Nat := 5
deriving DecidableEq, Repr

/-- `Alerter._send_slack`: returns without any attempt when slack is
disabled; otherwise attempts the send, absorbing failures. -/
def sendSlack (cfg : AlertConfig) (env : SendEnv) (a : Action) : List Event :=
  if cfg.slackEnabled then [Event.send a (env a)] else []

/-- `Alerter.send_initial_alert`: sends to Slack only, and only when
`'slack'` is in the result's `alert_channels`. -/
def sendInitialAlert (cfg : AlertConfig) (env : SendEnv) (r : CheckResult) :
    List Event :=
  if r.alertChannels.contains "slack" then
    sendSlack cfg env { channel := Channel.slack, kind := AKind.initial, failureCount := 1 }
  else []

/-- `Alerter.send_escalation_alert`: email fires iff `failure_count`
equals the email threshold, `'email'` is in the result's channels, and
email is enabled; sms likewise with its own threshold and enabled flag.
The incident argument of the source is used only for message text and is
omitted. -/
def sendEscalationAlert (cfg : AlertConfig) (env : SendEnv) (r : CheckResult)
    (failureCount : Nat) : List Event :=
  (if failureCount == cfg.emailThreshold
      && r.alertChannels.contains "email" && cfg.emailEnabled then
    [Event.send
      { channel := Channel.email, kind := AKind.escalation
        failureCount := failureCount }
      (env { channel := Channel.email, kind := AKind.escalation
             failureCount := failureCount })]
  else []) ++
  (if failureCount == cfg.smsThreshold
      && r.alertChannels.contains "sms" && cfg.smsEnabled then
    [Event.send
      { channel := Channel.sms, kind := AKind.escalation
        failureCount := failureCount }
      (env { channel := Channel.sms, kind := AKind.escalation
             failureCount := failureCount })]
  else [])

/-- `Alerter.send_recovery_alert`: Slack only, gated on `'slack'` being in
the result's channels; the message reports the (pre-resolution) incident's
`failure_count`. -/
def sendRecoveryAlert (cfg : AlertConfig) (env : SendEnv) (r : CheckResult)
    (incident : Incident) : List Event :=
  if r.alertChannels.contains "slack" then
    sendSlack cfg env
      { channel := Channel.slack, kind := AKind.recovery
        failureCount := incident.failureCount }
  else []

/-! ## Incident state machine (`Watchdog.handle_result`) -/

/-- The channel-marking loop at the end of `handle_result`'s new-incident
branch: `for channel in result['alert_channels']: if channel in ['slack',
'email', 'sms']: mark_alert_sent(incident_id, channel)`, processing the
channels in order and logging a commit event for each marking.  The
`none` case of `mark_alert_sent` is unreachable under the guard (see
`markAlertSent_isSome_of_valid`). -/
def markChannels (db : DB) (incId : Nat) : List String → DB × List Event
  | [] => (db, [])
  | c :: cs =>
      if c = "slack" ∨ c = "email" ∨ c = "sms" then
        match markAlertSent db incId c with
        | some db2 =>
            let rest := markChannels db2 incId cs
            (rest.1, Event.commit incId (CommitKind.markAlert c) :: rest.2)
        | none => markChannels db incId cs
      else markChannels db incId cs

/-- `Watchdog.handle_result`: reduce one classified result to an incident
transition plus notification events.  `now` is the clock value SQLite
would use for `CURRENT_TIMESTAMP` during this transition.  Returned
events are in program order: the incident mutation commit first, then the
send attempts (and, on the creation branch, the alert markings after the
initial send, as in the source). -/
def handleResult (cfg : AlertConfig) (env : SendEnv) (now : Nat) (db : DB)
    (r : CheckResult) : DB × List Event :=
  let incident := getOpenIncident db r.targetId
  if r.status = Status.success then
    match incident with
    | some inc =>
        let db2 := resolveIncident db now inc.id
        let evs := sendRecoveryAlert cfg env r inc
        (db2, Event.commit inc.id CommitKind.resolveInc :: evs)
    | none => (db, [])
  else
    match incident with
    | some inc =>
        let db2 := updateIncident db inc.id r.checkId true
        let failureCount := inc.failureCount + 1
        let evs := sendEscalationAlert cfg env r failureCount
        (db2, Event.commit inc.id CommitKind.updateInc :: evs)
    | none =>
        let created := createIncident db now r.targetId r.checkId
        let evs1 := sendInitialAlert cfg env r
        let marked := markChannels created.1 created.2 r.alertChannels
        (marked.1, Event.commit created.2 CommitKind.createInc :: (evs1 ++ marked.2))

/-! ## Derived notions used by the statements -/

/-- The row-level effect of `markChannels` on the row it targets: the
guarded `setAlerted` applied for each listed channel in order. -/
def applyValidMarks (i : Incident) : List String → Incident
  | [] => i
  | c :: cs =>
      if c = "slack" ∨ c = "email" ∨ c = "sms" then
        applyValidMarks (setAlerted i c) cs
      else applyValidMarks i cs

/-- Fold `handle_result` over a sequence of (timestamp, result) pairs,
keeping only the store. -/
def runDB (cfg : AlertConfig) (env : SendEnv) (steps : List (Nat × CheckResult))
    (db : DB) : DB :=
  steps.foldl (fun d p => (handleResult cfg env p.1 d p.2).1) db

/-- Iterate `handle_result` on one fixed non-success result `n` times
(`now = 0` throughout): a run of `n` consecutive identical failures. -/
def iterFail (cfg : AlertConfig) (env : SendEnv) (r : CheckResult) :
    Nat → DB → DB
  | 0, db => db
  | n + 1, db => iterFail cfg env r n (handleResult cfg env 0 db r).1

/-- The events emitted by the k-th step (1-indexed) of a run of identical
failures starting from `db`. -/
def stepEvents (cfg : AlertConfig) (env : SendEnv) (r : CheckResult)
    (db : DB) (k : Nat) : List Event :=
  (handleResult cfg env 0 (iterFail cfg env r (k - 1) db) r).2

/-- All events emitted during a run of `n` identical failures. -/
def runEvents (cfg : AlertConfig) (env : SendEnv) (r : CheckResult)
    (db : DB) : Nat → List Event
  | 0 => []
  | n + 1 =>
      (handleResult cfg env 0 db r).2 ++
        runEvents cfg env r (handleResult cfg env 0 db r).1 n

/-- Count the attempted sends of a given channel and kind in an event
log. -/
def countSends (evs : List Event) (ch : Channel) (k : AKind) : Nat :=
  evs.countP (fun e =>
    match e with
    | Event.send a _ => a.channel == ch && a.kind == k
    | Event.commit _ _ => false)

/-- Is this event a commit of an incident state mutation (create, update
or resolve — the marking commits record alert intent, not incident state
transitions)? -/
def isIncMutation (e : Event) : Bool :=
  match e with
  | Event.commit _ k =>
      match k with
      | CommitKind.markAlert _ => false
      | _ => true
  | Event.send _ _ => false

/-- Is this event an attempted notification send? -/
def isSendEvent (e : Event) : Bool :=
  match e with
  | Event.send _ _ => true
  | Event.commit _ _ => false

/-- Store well-formedness maintained by the code: all row ids are below
the AUTOINCREMENT counter and no two rows share an id. -/
def Wf (db : DB) : Prop :=
  (∀ i ∈ db.incidents, i.id < db.nextId) ∧ (db.incidents.map Incident.id).Nodup

/-! ## `Watchdog.run_checks` (loop structure) -/

/-- A persistence failure (`sqlite3` error) raised by a store write. -/
structure PersistErr where
  msg : String
deriving DecidableEq, Repr

/-- The per-target loop of `Watchdog.run_checks`: `for target in targets:
result = self.check_target(target); self.handle_result(result)` — with no
`try/except` around the body, so an exception raised while processing one
target propagates and ends the loop.  The body (`check_target` +
`handle_result`, whose store writes may raise persistence errors per the
error taxonomy) is passed in as a fallible step.  Returns the final
outcome and, for accounting, the ids of the targets that were attempted,
in order. -/
def runChecksLoop (body : Target → DB → Except PersistErr DB) :
    List Target → DB → Except PersistErr DB × List Nat
  | [], db => (Except.ok db, [])
  | t :: ts, db =>
      match body t db with
      | Except.ok db2 =>
          let rest := runChecksLoop body ts db2
          (rest.1, t.id :: rest.2)
      | Except.error e => (Except.error e, [t.id])

/-! ## Concrete instances for witnesses and counterexamples -/

/-- A transport environment in which every send succeeds. -/
def envAllOk : SendEnv := fun _ => true

/-- The alert configuration of the spec scenario: defaults (email
threshold 3, sms threshold 5) with sms enabled. -/
def cfgScenario : AlertConfig := { smsEnabled := true }

/-- A configuration with email `escalate_after = 1`: the threshold value
at which the escalation can never fire, because the step that brings
`failure_count` to 1 is the creation step, which sends only the initial
alert. -/
def cfgThreshold1 : AlertConfig := { emailThreshold := 1 }

/-- A non-success check result for target 1 listing all three channels. -/
def rFailAll : CheckResult :=
  { targetId := 1
    name := "Test Service"
    status := Status.failure
    statusCode := some 500
    responseTime := some 100
    errorMessage := some (statusMsg 200 500)
    checkId := 7
    alertChannels := ["slack", "email", "sms"] }

/-- A success result for target 1 listing all three channels. -/
def rOkAll : CheckResult :=
  { rFailAll with status := Status.success, statusCode := some 200
                  errorMessage := none }

/-- The spec-scenario target: `expected_status = 200`,
`contains = "healthy"`. -/
def tScenario : Target :=
  { id := 1
    name := "Test Service"
    url := "https://example.com/api/health"
    method := "GET"
    expectedStatus := 200
    timeout := 10
    contains := some "healthy"
    alertChannels := ["slack"] }

/-- Two open incidents for the same target, the second started later:
the state the at-most-one-open invariant forbids, used to observe what
`get_open_incident` does there. -/
def incA : Incident :=
  { id := 1, targetId := 1, startedAt := 1, status := IncStatus.opened
    failureCount := 2, lastCheckId := 3, resolvedAt := none
    slackAlerted := true, emailAlerted := false, smsAlerted := false }

/-- See `incA`. -/
def incB : Incident :=
  { incA with id := 2, startedAt := 5, failureCount := 1, lastCheckId := 9
              slackAlerted := false }

/-- A store holding the two simultaneous open incidents `incA`, `incB`. -/
def dbTwoOpen : DB := { incidents := [incA, incB], nextId := 3 }

/-- Two targets for the run-loop counterexample. -/
def tgt1 : Target :=
  { tScenario with id := 1, name := "T1" }

/-- See `tgt1`. -/
def tgt2 : Target :=
  { tScenario with id := 2, name := "T2" }

/-- A loop body whose store write fails while processing target 1 and
succeeds for every other target: a persistence error local to one target,
with the store otherwise reachable. -/
def bodyFail1 : Target → DB → Except PersistErr DB :=
  fun t db =>
    if t.id = 1 then Except.error { msg := "disk error" }
    else Except.ok db

/-! ## Lemmas: `get_open_incident` -/

theorem mrFold_some (l : List Incident) (j : Incident) :
    ∃ k, l.foldl mrStep (some j) = some k ∧ (k = j ∨ k ∈ l) ∧
      j.startedAt ≤ k.startedAt ∧ ∀ x ∈ l, x.startedAt ≤ k.startedAt := by
  induction l generalizing j with
  | nil => exact ⟨j, rfl, Or.inl rfl, Nat.le_refl _, by simp⟩
  | cons i t ih =>
      have hstep :
          mrStep (some j) i = some (if j.startedAt < i.startedAt then i else j) := by
        simp only [mrStep]
        split <;> rfl
      obtain ⟨k, hk, hmem, hle, hall⟩ := ih (if j.startedAt < i.startedAt then i else j)
      have hj : j.startedAt ≤ (if j.startedAt < i.startedAt then i else j).startedAt := by
        split <;> omega
      have hi : i.startedAt ≤ (if j.startedAt < i.startedAt then i else j).startedAt := by
        split <;> omega
      refine ⟨k, ?_, ?_, ?_, ?_⟩
      · simpa [hstep] using hk
      · rcases hmem with h | h
        · subst h
          split
          · exact Or.inr (List.mem_cons_self _ _)
          · exact Or.inl rfl
        · exact Or.inr (List.mem_cons_of_mem _ h)
      · exact Nat.le_trans hj hle
      · intro x hx
        rcases List.mem_cons.mp hx with h | h
        · subst h; exact Nat.le_trans hi hle
        · exact hall x h

theorem mostRecent_spec (l : List Incident) (hl : l ≠ []) :
    ∃ k, mostRecent l = some k ∧ k ∈ l ∧ ∀ x ∈ l, x.startedAt ≤ k.startedAt := by
  cases l with
  | nil => exact absurd rfl hl
  | cons i t =>
      obtain ⟨k, hk, hmem, hle, hall⟩ := mrFold_some t i
      refine ⟨k, ?_, ?_, ?_⟩
      · simpa [mostRecent, mrStep] using hk
      · rcases hmem with h | h
        · subst h; exact List.mem_cons_self _ _
        · exact List.mem_cons_of_mem _ h
      · intro x hx
        rcases List.mem_cons.mp hx with h | h
        · subst h; exact hle
        · exact hall x h

theorem mostRecent_eq_none_iff (l : List Incident) :
    mostRecent l = none ↔ l = [] := by
  constructor
  · intro h
    by_contra hne
    obtain ⟨k, hk, -, -⟩ := mostRecent_spec l hne
    rw [h] at hk
    exact Option.noConfusion hk
  · intro h; subst h; rfl

theorem getOpenIncident_eq_none_iff (db : DB) (tid : Nat) :
    getOpenIncident db tid = none ↔ openIncidents db tid = [] := by
  unfold getOpenIncident
  exact mostRecent_eq_none_iff _

theorem isOpenFor_iff (tid : Nat) (i : Incident) :
    isOpenFor tid i = true ↔ i.targetId = tid ∧ i.status = IncStatus.opened := by
  simp [isOpenFor]

theorem getOpenIncident_mem (db : DB) (tid : Nat) (inc : Incident)
    (h : getOpenIncident db tid = some inc) :
    inc ∈ db.incidents ∧ inc.targetId = tid ∧ inc.status = IncStatus.opened := by
  have hne : openIncidents db tid ≠ [] := by
    intro hnil
    rw [← getOpenIncident_eq_none_iff] at hnil
    rw [h] at hnil
    exact Option.noConfusion hnil
  obtain ⟨k, hk, hmem, -⟩ := mostRecent_spec _ hne
  have : k = inc := by
    have := hk.symm.trans h
    exact Option.some.inj this
  subst this
  have hmem2 := List.mem_filter.mp hmem
  exact ⟨hmem2.1, (isOpenFor_iff tid k).mp hmem2.2⟩

theorem getOpenIncident_of_singleton (db : DB) (tid : Nat) (inc : Incident)
    (h : openIncidents db tid = [inc]) :
    getOpenIncident db tid = some inc := by
  unfold getOpenIncident
  rw [h]
  rfl

theorem openIncidents_eq_singleton (db : DB) (tid : Nat) (inc : Incident)
    (hc : openCount db tid ≤ 1) (h : getOpenIncident db tid = some inc) :
    openIncidents db tid = [inc] := by
  have hne : openIncidents db tid ≠ [] := by
    intro hnil
    rw [← getOpenIncident_eq_none_iff] at hnil
    rw [h] at hnil
    exact Option.noConfusion hnil
  obtain ⟨k, hk, hmem, -⟩ := mostRecent_spec _ hne
  have hkinc : k = inc := Option.some.inj ((hk.symm.trans h))
  subst hkinc
  unfold openCount at hc
  match hl : openIncidents db tid with
  | [] => exact absurd hl hne
  | [a] =>
      rw [hl] at hmem
      simp at hmem
      rw [hmem]
  | a :: b :: t =>
      rw [hl] at hc
      simp at hc

/-! ## Lemmas: effect of the store operations on the open rows -/

theorem openIncidents_update (db : DB) (incId cid : Nat) (b : Bool) (tid : Nat) :
    openIncidents (updateIncident db incId cid b) tid =
      (openIncidents db tid).map (fun i =>
        if i.id == incId then
          if b then { i with lastCheckId := cid, failureCount := i.failureCount + 1 }
          else { i with lastCheckId := cid }
        else i) := by
  unfold openIncidents updateIncident
  rw [List.filter_map]
  congr 1
  apply List.filter_congr
  intro i _
  simp only [Function.comp]
  split
  · split <;> rfl
  · rfl

theorem openIncidents_resolve_superset (db : DB) (now incId tid : Nat) :
    ∀ j ∈ openIncidents (resolveIncident db now incId) tid,
      j ∈ (openIncidents db tid).map (fun i =>
        if i.id == incId then { i with status := IncStatus.resolved, resolvedAt := some now }
        else i) ∧ ¬ j.id = incId := by
  intro j hj
  unfold openIncidents resolveIncident at hj
  rw [List.filter_map] at hj
  obtain ⟨i, hi, hij⟩ := List.mem_map.mp hj
  have hif := List.mem_filter.mp hi
  by_cases hid : i.id == incId
  · exfalso
    simp only [Function.comp, hid, if_pos] at hif
    have := (isOpenFor_iff tid _).mp hif.2
    simp at this
  · simp only [Function.comp, hid] at hif
    simp only [Bool.false_eq_true, if_neg, if_false] at hif
    subst hij
    constructor
    · refine List.mem_map.mpr ⟨i, List.mem_filter.mpr ⟨hif.1, by simpa [hid] using hif.2⟩, ?_⟩
      simp [hid]
    · simp only [hid, Bool.false_eq_true, if_false]
      intro hcon
      exact absurd (by simpa using hcon) (by simpa using hid)

theorem openCount_update (db : DB) (incId cid : Nat) (b : Bool) (tid : Nat) :
    openCount (updateIncident db incId cid b) tid = openCount db tid := by
  unfold openCount
  rw [openIncidents_update, List.length_map]

theorem openCount_resolve_le (db : DB) (now incId tid : Nat) :
    openCount (resolveIncident db now incId) tid ≤ openCount db tid := by
  unfold openCount openIncidents resolveIncident
  rw [← List.countP_eq_length_filter, ← List.countP_eq_length_filter,
      List.countP_map]
  apply List.countP_mono_left
  intro i _ h
  simp only [Function.comp] at h
  by_cases hid : i.id == incId
  · exfalso
    simp only [hid, if_pos] at h
    have := (isOpenFor_iff tid _).mp h
    simp at this
  · simpa [hid] using h

theorem openIncidents_create (db : DB) (now tid0 cid tid : Nat) :
    openIncidents (createIncident db now tid0 cid).1 tid =
      openIncidents db tid ++
        (if tid0 = tid then
          [{ id := db.nextId, targetId := tid0, startedAt := now
             status := IncStatus.opened, failureCount := 1, lastCheckId := cid
             resolvedAt := none, slackAlerted := false, emailAlerted := false
             smsAlerted := false }]
         else []) := by
  unfold openIncidents createIncident
  rw [List.filter_append]
  congr 1
  by_cases h : tid0 = tid
  · subst h
    simp [isOpenFor, List.filter]
  · have hb : (tid0 == tid) = false := by simpa using h
    simp [isOpenFor, List.filter, hb]
    exact h

/-! ## Lemmas: alert marking -/

theorem markAlertSent_isSome_of_valid (db : DB) (incId : Nat) (c : String)
    (h : c = "slack" ∨ c = "email" ∨ c = "sms") :
    (markAlertSent db incId c).isSome := by
  unfold markAlertSent
  rw [if_pos h]
  rfl

theorem markAlertSent_eq_none_of_invalid (db : DB) (incId : Nat) (c : String)
    (h : ¬ (c = "slack" ∨ c = "email" ∨ c = "sms")) :
    markAlertSent db incId c = none := by
  unfold markAlertSent
  rw [if_neg h]

theorem setAlerted_fields (i : Incident) (c : String) :
    (setAlerted i c).id = i.id ∧ (setAlerted i c).targetId = i.targetId ∧
      (setAlerted i c).status = i.status ∧
      (setAlerted i c).failureCount = i.failureCount ∧
      (setAlerted i c).startedAt = i.startedAt := by
  unfold setAlerted
  split_ifs <;> simp

theorem applyValidMarks_eq (cs : List String) (i : Incident) :
    applyValidMarks i cs =
      { i with slackAlerted := i.slackAlerted || cs.contains "slack"
               emailAlerted := i.emailAlerted || cs.contains "email"
               smsAlerted := i.smsAlerted || cs.contains "sms" } := by
  induction cs generalizing i with
  | nil => simp [applyValidMarks]
  | cons c cs ih =>
      by_cases h1 : c = "slack"
      · subst h1
        rw [applyValidMarks, if_pos (Or.inl rfl), ih]
        simp [setAlerted, List.contains_cons]
      · by_cases h2 : c = "email"
        · subst h2
          rw [applyValidMarks, if_pos (Or.inr (Or.inl rfl)), ih]
          simp [setAlerted, List.contains_cons]
        · by_cases h3 : c = "sms"
          · subst h3
            rw [applyValidMarks, if_pos (Or.inr (Or.inr rfl)), ih]
            simp [setAlerted, List.contains_cons]
          · rw [applyValidMarks, if_neg (by tauto), ih]
            simp [List.contains_cons, Ne.symm h1, Ne.symm h2, Ne.symm h3]

theorem markChannels_store (cs : List String) (db : DB) (incId : Nat) :
    (markChannels db incId cs).1.incidents =
        db.incidents.map (fun i =>
          if i.id == incId then applyValidMarks i cs else i) ∧
      (markChannels db incId cs).1.nextId = db.nextId := by
  induction cs generalizing db with
  | nil =>
      constructor
      · simp [markChannels, applyValidMarks]
      · rfl
  | cons c cs ih =>
      by_cases hv : c = "slack" ∨ c = "email" ∨ c = "sms"
      · have hmk : markAlertSent db incId c =
            some { db with
                   incidents := db.incidents.map (fun i =>
                     if i.id == incId then setAlerted i c else i) } := by
          unfold markAlertSent
          rw [if_pos hv]
        rw [markChannels, if_pos hv, hmk]
        obtain ⟨ih1, ih2⟩ := ih _
        constructor
        · rw [ih1]
          simp only [List.map_map]
          apply List.map_congr_left
          intro i _
          simp only [Function.comp_apply]
          by_cases hid : (i.id == incId) = true
          · simp only [hid, (setAlerted_fields i c).1, if_true]
            simp [applyValidMarks, hv]
          · simp only [hid, (setAlerted_fields i c).1, if_false]
            simp [hid]
        · exact ih2
      · rw [markChannels, if_neg hv]
        obtain ⟨ih1, ih2⟩ := ih db
        constructor
        · rw [ih1]
          apply List.map_congr_left
          intro i _
          rw [applyValidMarks, if_neg hv]
        · exact ih2

theorem markChannels_events (cs : List String) (db : DB) (incId : Nat) :
    ∀ e ∈ (markChannels db incId cs).2,
      ∃ c, e = Event.commit incId (CommitKind.markAlert c) ∧
        (c = "slack" ∨ c = "email" ∨ c = "sms") := by
  induction cs generalizing db with
  | nil => intro e he; simp [markChannels] at he
  | cons c cs ih =>
      intro e he
      by_cases hv : c = "slack" ∨ c = "email" ∨ c = "sms"
      · have hmk : markAlertSent db incId c =
            some { db with
                   incidents := db.incidents.map (fun i =>
                     if i.id == incId then setAlerted i c else i) } := by
          unfold markAlertSent
          rw [if_pos hv]
        rw [markChannels, if_pos hv, hmk] at he
        rcases List.mem_cons.mp he with h | h
        · exact ⟨c, h, hv⟩
        · exact ih _ e h
      · rw [markChannels, if_neg hv] at he
        exact ih db e he

theorem openIncidents_markChannels (cs : List String) (db : DB)
    (incId tid : Nat) :
    openIncidents (markChannels db incId cs).1 tid =
      (openIncidents db tid).map (fun i =>
        if i.id == incId then applyValidMarks i cs else i) := by
  unfold openIncidents
  rw [(markChannels_store cs db incId).1, List.filter_map]
  congr 1
  apply List.filter_congr
  intro i _
  simp only [Function.comp]
  by_cases hid : i.id == incId
  · simp only [hid, if_pos]
    rw [applyValidMarks_eq]
    simp [isOpenFor]
  · simp [hid]

/-! ## Lemmas: the four branches of `handle_result` -/

theorem handleResult_success_some (cfg : AlertConfig) (env : SendEnv)
    (now : Nat) (db : DB) (r : CheckResult) (inc : Incident)
    (h1 : r.status = Status.success)
    (h2 : getOpenIncident db r.targetId = some inc) :
    handleResult cfg env now db r =
      (resolveIncident db now inc.id,
        Event.commit inc.id CommitKind.resolveInc ::
          sendRecoveryAlert cfg env r inc) := by
  unfold handleResult
  rw [h2, if_pos h1]

theorem handleResult_success_none (cfg : AlertConfig) (env : SendEnv)
    (now : Nat) (db : DB) (r : CheckResult)
    (h1 : r.status = Status.success)
    (h2 : getOpenIncident db r.targetId = none) :
    handleResult cfg env now db r = (db, []) := by
  unfold handleResult
  rw [h2, if_pos h1]

theorem handleResult_fail_some (cfg : AlertConfig) (env : SendEnv)
    (now : Nat) (db : DB) (r : CheckResult) (inc : Incident)
    (h1 : r.status ≠ Status.success)
    (h2 : getOpenIncident db r.targetId = some inc) :
    handleResult cfg env now db r =
      (updateIncident db inc.id r.checkId true,
        Event.commit inc.id CommitKind.updateInc ::
          sendEscalationAlert cfg env r (inc.failureCount + 1)) := by
  unfold handleResult
  rw [h2, if_neg h1]

theorem handleResult_fail_none (cfg : AlertConfig) (env : SendEnv)
    (now : Nat) (db : DB) (r : CheckResult)
    (h1 : r.status ≠ Status.success)
    (h2 : getOpenIncident db r.targetId = none) :
    handleResult cfg env now db r =
      ((markChannels (createIncident db now r.targetId r.checkId).1 db.nextId
          r.alertChannels).1,
        Event.commit db.nextId CommitKind.createInc ::
          (sendInitialAlert cfg env r ++
            (markChannels (createIncident db now r.targetId r.checkId).1 db.nextId
              r.alertChannels).2)) := by
  unfold handleResult
  rw [h2, if_neg h1]
  rfl

/-! ## Lemmas: lengths and open counts across the operations -/

theorem length_resolve (db : DB) (now incId : Nat) :
    (resolveIncident db now incId).incidents.length = db.incidents.length := by
  simp [resolveIncident]

theorem length_update (db : DB) (incId cid : Nat) (b : Bool) :
    (updateIncident db incId cid b).incidents.length = db.incidents.length := by
  simp [updateIncident]

theorem length_create (db : DB) (now tid cid : Nat) :
    (createIncident db now tid cid).1.incidents.length =
      db.incidents.length + 1 := by
  simp [createIncident]

theorem length_markChannels (db : DB) (incId : Nat) (cs : List String) :
    (markChannels db incId cs).1.incidents.length = db.incidents.length := by
  rw [(markChannels_store cs db incId).1]
  simp

theorem openCount_markChannels (db : DB) (incId : Nat) (cs : List String)
    (tid : Nat) :
    openCount (markChannels db incId cs).1 tid = openCount db tid := by
  unfold openCount
  rw [openIncidents_markChannels]
  simp

theorem openCount_create_self (db : DB) (now tid cid : Nat) :
    openCount (createIncident db now tid cid).1 tid = openCount db tid + 1 := by
  unfold openCount
  rw [openIncidents_create]
  simp

theorem openCount_create_other (db : DB) (now tid0 cid tid : Nat)
    (h : tid0 ≠ tid) :
    openCount (createIncident db now tid0 cid).1 tid = openCount db tid := by
  unfold openCount
  rw [openIncidents_create]
  simp [h]

theorem openCount_eq_zero_of_none (db : DB) (tid : Nat)
    (h : getOpenIncident db tid = none) : openCount db tid = 0 := by
  rw [getOpenIncident_eq_none_iff] at h
  unfold openCount
  rw [h]
  rfl

/-- C1, single step: the at-most-one-open invariant is preserved by one
`handle_result` transition, and a row is inserted exactly when the check
is non-success and no open incident exists. -/
theorem handleResult_invariant_step (cfg : AlertConfig) (env : SendEnv)
    (now : Nat) (db : DB) (r : CheckResult)
    (hdb : ∀ t, openCount db t ≤ 1) :
    (∀ t, openCount (handleResult cfg env now db r).1 t ≤ 1) ∧
      (handleResult cfg env now db r).1.incidents.length =
        db.incidents.length +
          (if r.status ≠ Status.success ∧ getOpenIncident db r.targetId = none
           then 1 else 0) := by
  by_cases hs : r.status = Status.success
  · match hi : getOpenIncident db r.targetId with
    | some inc =>
        rw [handleResult_success_some cfg env now db r inc hs hi]
        constructor
        · intro t
          exact Nat.le_trans (openCount_resolve_le db now inc.id t) (hdb t)
        · rw [length_resolve]
          simp [hs]
    | none =>
        rw [handleResult_success_none cfg env now db r hs hi]
        exact ⟨hdb, by simp [hs]⟩
  · match hi : getOpenIncident db r.targetId with
    | some inc =>
        rw [handleResult_fail_some cfg env now db r inc hs hi]
        constructor
        · intro t
          rw [openCount_update]
          exact hdb t
        · rw [length_update]
          simp [hi]
    | none =>
        rw [handleResult_fail_none cfg env now db r hs hi]
        constructor
        · intro t
          rw [openCount_markChannels]
          by_cases ht : r.targetId = t
          · subst ht
            rw [openCount_create_self, openCount_eq_zero_of_none db _ hi]
          · rw [openCount_create_other db now _ r.checkId t ht]
            exact hdb t
        · rw [length_markChannels, length_create]
          simp [hs, hi]

/-- C1: for every sequence of check results handled via `handle_result`,
at most one incident is open per target at every point; and a single
transition inserts a row exactly when the check is non-success and
`get_open_incident` returned absent. -/
theorem claim_C1 (db : DB) (hdb : ∀ t, openCount db t ≤ 1) :
    (∀ cfg env now r,
      (∀ t, openCount (handleResult cfg env now db r).1 t ≤ 1) ∧
        (handleResult cfg env now db r).1.incidents.length =
          db.incidents.length +
            (if r.status ≠ Status.success ∧ getOpenIncident db r.targetId = none
             then 1 else 0)) ∧
      ∀ cfg env (steps : List (Nat × CheckResult)) (t : Nat),
        openCount (runDB cfg env steps db) t ≤ 1 := by
  constructor
  · intro cfg env now r
    exact handleResult_invariant_step cfg env now db r hdb
  · intro cfg env steps
    induction steps generalizing db with
    | nil => exact hdb
    | cons p ps ih =>
        intro t
        unfold runDB
        rw [List.foldl_cons]
        exact ih _ (fun t0 =>
          (handleResult_invariant_step cfg env p.1 db p.2 hdb).1 t0) t

/-- Witness for C1 at a concrete store and result. -/
theorem claim_C1_witness :
    openCount (handleResult cfgScenario envAllOk 0 DB.empty rFailAll).1 1 ≤ 1 :=
  ((claim_C1 DB.empty
      (fun _ => by simp [openCount, openIncidents, DB.empty])).1
    cfgScenario envAllOk 0 rFailAll).1 1

/-- C9: the dynamic `{channel}_alerted` column is well-formed exactly on
{slack, email, sms}; the guard in `handle_result` filters the channel list
to that set before calling `mark_alert_sent`, so the marking loop is
unchanged by dropping other channels (they are silently never marked), and
every marking commit it performs names a channel from the set. -/
theorem claim_C9 :
    (∀ (db : DB) (incId : Nat) (c : String),
        (c = "slack" ∨ c = "email" ∨ c = "sms") →
        (markAlertSent db incId c).isSome) ∧
      (∀ (db : DB) (incId : Nat) (c : String),
        ¬ (c = "slack" ∨ c = "email" ∨ c = "sms") →
        markAlertSent db incId c = none) ∧
      (∀ (db : DB) (incId : Nat) (cs : List String),
        markChannels db incId cs =
          markChannels db incId
            (cs.filter (fun c =>
              decide (c = "slack" ∨ c = "email" ∨ c = "sms")))) ∧
      ∀ (db : DB) (incId : Nat) (cs : List String) (e : Event),
        e ∈ (markChannels db incId cs).2 →
        ∃ c, e = Event.commit incId (CommitKind.markAlert c) ∧
          (c = "slack" ∨ c = "email" ∨ c = "sms") := by
  refine ⟨markAlertSent_isSome_of_valid, markAlertSent_eq_none_of_invalid,
    ?_, fun db incId cs => markChannels_events cs db incId⟩
  intro db incId cs
  induction cs generalizing db with
  | nil => rfl
  | cons c cs ih =>
      by_cases hv : c = "slack" ∨ c = "email" ∨ c = "sms"
      · rw [List.filter_cons_of_pos (by simpa using hv)]
        rw [markChannels, markChannels, if_pos hv, if_pos hv]
        match hmk : markAlertSent db incId c with
        | some db2 =>
            dsimp only
            rw [ih db2]
        | none =>
            exfalso
            have := markAlertSent_isSome_of_valid db incId c hv
            rw [hmk] at this
            exact Bool.noConfusion this
      · rw [List.filter_cons_of_neg (by simpa using hv)]
        rw [markChannels, if_neg hv]
        exact ih db

/-- Witness for C9 at concrete channels. -/
theorem claim_C9_witness :
    (markAlertSent DB.empty 1 "slack").isSome ∧
      markAlertSent DB.empty 1 "webhook" = none :=
  ⟨claim_C9.1 DB.empty 1 "slack" (Or.inl rfl),
    claim_C9.2.1 DB.empty 1 "webhook" (by simp)⟩

/-- C5: classification follows the first-match decision order with the
exact error messages; response time and status code are recorded exactly
on the completed branches. -/
theorem claim_C5 (t : Target) (elapsedMs checkId : Nat) :
    (checkTarget t ProbeOutcome.timedOut elapsedMs checkId =
        { targetId := t.id, name := t.name, status := Status.timeout
          statusCode := none, responseTime := none
          errorMessage := some (timeoutMsg t.timeout), checkId := checkId
          alertChannels := t.alertChannels }) ∧
      (∀ d, checkTarget t (ProbeOutcome.failed d) elapsedMs checkId =
        { targetId := t.id, name := t.name, status := Status.error
          statusCode := none, responseTime := none, errorMessage := some d
          checkId := checkId, alertChannels := t.alertChannels }) ∧
      (∀ code body, code ≠ t.expectedStatus →
        checkTarget t (ProbeOutcome.completed code body) elapsedMs checkId =
          { targetId := t.id, name := t.name, status := Status.failure
            statusCode := some code, responseTime := some elapsedMs
            errorMessage := some (statusMsg t.expectedStatus code)
            checkId := checkId, alertChannels := t.alertChannels }) ∧
      (∀ code body s, code = t.expectedStatus → t.contains = some s →
        s ≠ "" → strContains body s = false →
        checkTarget t (ProbeOutcome.completed code body) elapsedMs checkId =
          { targetId := t.id, name := t.name, status := Status.failure
            statusCode := some code, responseTime := some elapsedMs
            errorMessage := some (contentMsg s), checkId := checkId
            alertChannels := t.alertChannels }) ∧
      (∀ code body, code = t.expectedStatus →
        (∀ s, t.contains = some s → s = "" ∨ strContains body s = true) →
        checkTarget t (ProbeOutcome.completed code body) elapsedMs checkId =
          { targetId := t.id, name := t.name, status := Status.success
            statusCode := some code, responseTime := some elapsedMs
            errorMessage := none, checkId := checkId
            alertChannels := t.alertChannels }) := by
  refine ⟨rfl, fun d => rfl, ?_, ?_, ?_⟩
  · intro code body h
    simp [checkTarget, h]
  · intro code body s hcode hcont hs hnc
    subst hcode
    simp [checkTarget, hcont, hs, hnc]
  · intro code body hcode hok
    subst hcode
    simp only [checkTarget, ne_eq, not_true_eq_false, if_false, ite_false]
    match hc : t.contains with
    | none => simp
    | some s =>
        have := hok s hc
        rcases this with h | h
        · subst h
          simp
        · simp [h]

/-- Witness for C5 on the spec scenario target (`expected_status = 200`,
`contains = "healthy"`). -/
theorem claim_C5_witness :
    (checkTarget tScenario (ProbeOutcome.completed 500 "oops") 50 3 =
        { targetId := tScenario.id, name := tScenario.name
          status := Status.failure, statusCode := some 500
          responseTime := some 50
          errorMessage := some (statusMsg tScenario.expectedStatus 500)
          checkId := 3, alertChannels := tScenario.alertChannels }) ∧
      statusMsg 200 500 = "Expected 200, got 500" ∧
      (checkTarget tScenario (ProbeOutcome.completed 200 "Status: degraded")
          50 4).errorMessage =
        some ("Expected content " ++ sq ++ "healthy" ++ sq ++ " not found") ∧
      (checkTarget tScenario (ProbeOutcome.completed 200 "Status: healthy")
          50 5).status = Status.success ∧
      (checkTarget tScenario ProbeOutcome.timedOut 0 6).errorMessage =
        some "Timeout after 10s" := by
  refine ⟨(claim_C5 tScenario 50 3).2.2.1 500 "oops" (by decide), by decide,
    ?_, ?_, ?_⟩
  · have h := (claim_C5 tScenario 50 4).2.2.2.1 200 "Status: degraded"
      "healthy" rfl rfl (by decide) (by decide)
    rw [h]
    decide
  · have h := (claim_C5 tScenario 50 5).2.2.2.2 200 "Status: healthy" rfl
      (by
        intro s hs
        right
        have hs2 : "healthy" = s := by simpa [tScenario] using hs
        rw [← hs2]
        decide)
    rw [h]
  · have h := (claim_C5 tScenario 0 6).1
    rw [h]
    decide

/-! ## Lemmas: evolution of the single open incident across a failure run -/

theorem getOpenIncident_of_empty (db : DB) (tid : Nat)
    (h : openIncidents db tid = []) : getOpenIncident db tid = none := by
  unfold getOpenIncident
  rw [h]
  rfl

/-- A non-success result on a store whose target has exactly one open
incident: the row is updated in place (`failure_count + 1`, new
`last_check_id`), all other fields untouched. -/
theorem handleResult_fail_singleton (cfg : AlertConfig) (env : SendEnv)
    (now : Nat) (db : DB) (r : CheckResult) (inc : Incident)
    (h1 : r.status ≠ Status.success)
    (hsing : openIncidents db r.targetId = [inc]) :
    openIncidents (handleResult cfg env now db r).1 r.targetId =
      [{ inc with lastCheckId := r.checkId
                  failureCount := inc.failureCount + 1 }] ∧
      (handleResult cfg env now db r).1.nextId = db.nextId := by
  have hget := getOpenIncident_of_singleton db r.targetId inc hsing
  rw [handleResult_fail_some cfg env now db r inc h1 hget]
  constructor
  · rw [openIncidents_update, hsing]
    simp
  · rfl

/-- A non-success result on a store with no open incident for the target:
a fresh row is created with `failure_count = 1` (then channel-marked), and
the AUTOINCREMENT counter advances. -/
theorem handleResult_fail_clean (cfg : AlertConfig) (env : SendEnv)
    (now : Nat) (db : DB) (r : CheckResult)
    (h1 : r.status ≠ Status.success)
    (hclean : openIncidents db r.targetId = []) :
    openIncidents (handleResult cfg env now db r).1 r.targetId =
      [applyValidMarks
        { id := db.nextId, targetId := r.targetId, startedAt := now
          status := IncStatus.opened, failureCount := 1
          lastCheckId := r.checkId, resolvedAt := none
          slackAlerted := false, emailAlerted := false, smsAlerted := false }
        r.alertChannels] ∧
      (handleResult cfg env now db r).1.nextId = db.nextId + 1 := by
  have hget := getOpenIncident_of_empty db r.targetId hclean
  rw [handleResult_fail_none cfg env now db r h1 hget]
  constructor
  · rw [openIncidents_markChannels, openIncidents_create, hclean]
    simp
  · rw [(markChannels_store _ _ _).2]
    rfl

theorem runDB_cons (cfg : AlertConfig) (env : SendEnv)
    (p : Nat × CheckResult) (steps : List (Nat × CheckResult)) (db : DB) :
    runDB cfg env (p :: steps) db =
      runDB cfg env steps (handleResult cfg env p.1 db p.2).1 := rfl

/-- Failure steps on a singleton open incident: the id and start stay, the
failure count advances by the number of steps. -/
theorem runDB_fail_singleton (cfg : AlertConfig) (env : SendEnv) (tid : Nat) :
    ∀ (steps : List (Nat × CheckResult)) (db : DB) (inc : Incident),
      (∀ p ∈ steps, p.2.status ≠ Status.success ∧ p.2.targetId = tid) →
      openIncidents db tid = [inc] →
      ∃ inc2, openIncidents (runDB cfg env steps db) tid = [inc2] ∧
        inc2.id = inc.id ∧
        inc2.failureCount = inc.failureCount + steps.length ∧
        inc2.startedAt = inc.startedAt := by
  intro steps
  induction steps with
  | nil => exact fun db inc _ hsing => ⟨inc, hsing, rfl, rfl, rfl⟩
  | cons p rest ih =>
      intro db inc hall hsing
      have hp := hall p (List.mem_cons_self _ _)
      have hstep := handleResult_fail_singleton cfg env p.1 db p.2 inc hp.1
        (by rw [hp.2]; exact hsing)
      rw [runDB_cons]
      obtain ⟨inc2, h2, hid, hcnt, hsa⟩ := ih (handleResult cfg env p.1 db p.2).1
        ({ inc with lastCheckId := p.2.checkId
                    failureCount := inc.failureCount + 1 })
        (fun q hq => hall q (List.mem_cons_of_mem _ hq))
        (by rw [← hp.2]; exact hstep.1)
      refine ⟨inc2, h2, hid, ?_, hsa⟩
      rw [hcnt]
      simp
      omega

/-- C3: after `N ≥ 1` consecutive non-success results for a target with no
open incident (since the last resolution), the open incident's
`failure_count` is exactly `N`; and each single non-success step on an
open incident increments `failure_count` by exactly one, never
decrementing it. -/
theorem claim_C3 (cfg : AlertConfig) (env : SendEnv)
    (steps : List (Nat × CheckResult)) (db : DB) (tid : Nat)
    (hne : steps ≠ [])
    (hall : ∀ p ∈ steps, p.2.status ≠ Status.success ∧ p.2.targetId = tid)
    (hclean : openIncidents db tid = []) :
    (∃ inc, getOpenIncident (runDB cfg env steps db) tid = some inc ∧
        inc.failureCount = steps.length) ∧
      ∀ (now : Nat) (r : CheckResult) (db2 : DB) (inc2 : Incident),
        r.status ≠ Status.success → r.targetId = tid →
        openIncidents db2 tid = [inc2] →
        openIncidents (handleResult cfg env now db2 r).1 tid =
          [{ inc2 with lastCheckId := r.checkId
                       failureCount := inc2.failureCount + 1 }] := by
  constructor
  · match steps, hne with
    | p :: rest, _ =>
        have hp := hall p (List.mem_cons_self _ _)
        have hstep := handleResult_fail_clean cfg env p.1 db p.2 hp.1
          (by rw [hp.2]; exact hclean)
        obtain ⟨inc2, h2, -, hcnt, -⟩ := runDB_fail_singleton cfg env tid rest
          (handleResult cfg env p.1 db p.2).1 _
          (fun q hq => hall q (List.mem_cons_of_mem _ hq))
          (by rw [← hp.2]; exact hstep.1)
        rw [runDB_cons]
        refine ⟨inc2, getOpenIncident_of_singleton _ _ _ h2, ?_⟩
        rw [hcnt, applyValidMarks_eq]
        simp
        omega
  · intro now r db2 inc2 h1 h2 hsing
    have := handleResult_fail_singleton cfg env now db2 r inc2 h1
      (by rw [h2]; exact hsing)
    rw [← h2]
    exact this.1

/-- Witness for C3: three consecutive failures from a clean store leave an
open incident with `failure_count = 3`. -/
theorem claim_C3_witness :
    ∃ inc, getOpenIncident
        (runDB cfgScenario envAllOk [(0, rFailAll), (1, rFailAll), (2, rFailAll)]
          DB.empty) 1 = some inc ∧ inc.failureCount = 3 := by
  have h := claim_C3 cfgScenario envAllOk
    [(0, rFailAll), (1, rFailAll), (2, rFailAll)] DB.empty 1
    (by simp)
    (by intro p hp; fin_cases hp <;> exact ⟨by decide, rfl⟩)
    (by simp [openIncidents, DB.empty])
  simpa using h.1

/-! ## Lemmas: id well-formedness and terminality of resolved incidents -/

theorem Wf_map_generic (db db2 : DB) (f : Incident → Incident)
    (hf : ∀ i, (f i).id = i.id)
    (hinc : db2.incidents = db.incidents.map f)
    (hnext : db2.nextId = db.nextId)
    (h : Wf db) : Wf db2 := by
  obtain ⟨hb, hn⟩ := h
  constructor
  · intro i hi
    rw [hinc] at hi
    obtain ⟨j, hj, rfl⟩ := List.mem_map.mp hi
    rw [hf j, hnext]
    exact hb j hj
  · rw [hinc, List.map_map]
    have hcomp : (Incident.id ∘ f) = Incident.id := funext hf
    rw [hcomp]
    exact hn

theorem Wf_update (db : DB) (incId cid : Nat) (b : Bool) (h : Wf db) :
    Wf (updateIncident db incId cid b) := by
  refine Wf_map_generic db _ _ ?_ rfl rfl h
  intro i
  by_cases hid : (i.id == incId) = true
  · cases b <;> simp [hid]
  · simp [hid]

theorem Wf_resolve (db : DB) (now incId : Nat) (h : Wf db) :
    Wf (resolveIncident db now incId) := by
  refine Wf_map_generic db _ _ ?_ rfl rfl h
  intro i
  by_cases hid : (i.id == incId) = true
  · simp [hid]
  · simp [hid]

theorem Wf_markChannels (db : DB) (incId : Nat) (cs : List String)
    (h : Wf db) : Wf (markChannels db incId cs).1 := by
  refine Wf_map_generic db _ _ ?_ (markChannels_store cs db incId).1
    (markChannels_store cs db incId).2 h
  intro i
  by_cases hid : (i.id == incId) = true
  · simp [hid, applyValidMarks_eq]
  · simp [hid]

theorem Wf_create (db : DB) (now tid cid : Nat) (h : Wf db) :
    Wf (createIncident db now tid cid).1 := by
  obtain ⟨hb, hn⟩ := h
  constructor
  · intro i hi
    simp only [createIncident, List.mem_append, List.mem_singleton] at hi
    rcases hi with hi | hi
    · have := hb i hi
      simp [createIncident]
      omega
    · subst hi
      simp [createIncident]
  · simp only [createIncident, List.map_append, List.map_cons, List.map_nil]
    rw [List.nodup_append]
    refine ⟨hn, List.nodup_singleton _, ?_⟩
    intro a ha hb2
    simp only [List.mem_singleton] at hb2
    subst hb2
    obtain ⟨j, hj, hjid⟩ := List.mem_map.mp ha
    have := hb j hj
    omega

theorem Wf_handleResult (cfg : AlertConfig) (env : SendEnv) (now : Nat)
    (db : DB) (r : CheckResult) (h : Wf db) :
    Wf (handleResult cfg env now db r).1 := by
  by_cases hs : r.status = Status.success
  · match hi : getOpenIncident db r.targetId with
    | some inc =>
        rw [handleResult_success_some cfg env now db r inc hs hi]
        exact Wf_resolve db now inc.id h
    | none =>
        rw [handleResult_success_none cfg env now db r hs hi]
        exact h
  · match hi : getOpenIncident db r.targetId with
    | some inc =>
        rw [handleResult_fail_some cfg env now db r inc hs hi]
        exact Wf_update db inc.id r.checkId true h
    | none =>
        rw [handleResult_fail_none cfg env now db r hs hi]
        exact Wf_markChannels _ _ _ (Wf_create db now r.targetId r.checkId h)

/-- Resolved incidents are terminal: no transition of `handle_result`
mutates a row whose status is `resolved`. -/
theorem resolved_preserved (cfg : AlertConfig) (env : SendEnv) (now : Nat)
    (db : DB) (r : CheckResult) (h : Wf db) :
    ∀ j ∈ db.incidents, j.status = IncStatus.resolved →
      j ∈ (handleResult cfg env now db r).1.incidents := by
  intro j hj hjres
  by_cases hs : r.status = Status.success
  · match hi : getOpenIncident db r.targetId with
    | some inc =>
        rw [handleResult_success_some cfg env now db r inc hs hi]
        obtain ⟨hincmem, -, hincopen⟩ := getOpenIncident_mem db r.targetId inc hi
        have hne : j.id ≠ inc.id := by
          intro hcon
          have := List.inj_on_of_nodup_map h.2 hj hincmem hcon
          rw [this, hincopen] at hjres
          exact IncStatus.noConfusion hjres
        have hbeq : (j.id == inc.id) = false := by simpa using hne
        have : (fun i => if i.id == inc.id then
            { i with status := IncStatus.resolved, resolvedAt := some now }
          else i) j = j := by simp [hbeq]
        exact this ▸ List.mem_map_of_mem _ hj
    | none =>
        rw [handleResult_success_none cfg env now db r hs hi]
        exact hj
  · match hi : getOpenIncident db r.targetId with
    | some inc =>
        rw [handleResult_fail_some cfg env now db r inc hs hi]
        obtain ⟨hincmem, -, hincopen⟩ := getOpenIncident_mem db r.targetId inc hi
        have hne : j.id ≠ inc.id := by
          intro hcon
          have := List.inj_on_of_nodup_map h.2 hj hincmem hcon
          rw [this, hincopen] at hjres
          exact IncStatus.noConfusion hjres
        have hbeq : (j.id == inc.id) = false := by simpa using hne
        have : (fun i => if i.id == inc.id then
            if true then
              { i with lastCheckId := r.checkId
                       failureCount := i.failureCount + 1 }
            else { i with lastCheckId := r.checkId }
          else i) j = j := by simp [hbeq]
        exact this ▸ List.mem_map_of_mem _ hj
    | none =>
        rw [handleResult_fail_none cfg env now db r hs hi]
        have hjlt := h.1 j hj
        have hbeq : (j.id == db.nextId) = false := by
          have : j.id ≠ db.nextId := by omega
          simpa using this
        rw [(markChannels_store _ _ _).1]
        have hj2 : j ∈ (createIncident db now r.targetId r.checkId).1.incidents := by
          simp only [createIncident, List.mem_append]
          exact Or.inl hj
        have : (fun i => if i.id == db.nextId then
            applyValidMarks i r.alertChannels else i) j = j := by simp [hbeq]
        exact this ▸ List.mem_map_of_mem _ hj2

/-- C4: a success on a store whose target has one open incident (with
`failure_count = K`) resolves it in place with `resolved_at` set; the
recovery notification carries the pre-resolution snapshot still holding
`failure_count = K`; resolved incidents are never mutated again; and a
subsequent non-success opens a brand-new incident with `failure_count = 1`
and an id distinct from the resolved one. -/
theorem claim_C4 (cfg : AlertConfig) (env : SendEnv) (now : Nat) (db : DB)
    (r : CheckResult) (inc : Incident)
    (hwf : Wf db)
    (hsing : openIncidents db r.targetId = [inc])
    (hsucc : r.status = Status.success) :
    ({ inc with status := IncStatus.resolved, resolvedAt := some now } ∈
        (handleResult cfg env now db r).1.incidents) ∧
      openIncidents (handleResult cfg env now db r).1 r.targetId = [] ∧
      (∀ a ok, Event.send a ok ∈ (handleResult cfg env now db r).2 →
        a.kind = AKind.recovery ∧ a.failureCount = inc.failureCount) ∧
      (∀ (db0 : DB) (j : Incident) (cfg0 : AlertConfig) (env0 : SendEnv)
          (now0 : Nat) (r0 : CheckResult),
        Wf db0 → j ∈ db0.incidents → j.status = IncStatus.resolved →
        j ∈ (handleResult cfg0 env0 now0 db0 r0).1.incidents) ∧
      ∀ (now2 : Nat) (r2 : CheckResult),
        r2.status ≠ Status.success → r2.targetId = r.targetId →
        ∃ inc2,
          getOpenIncident
              (handleResult cfg env now2 (handleResult cfg env now db r).1 r2).1
              r.targetId = some inc2 ∧
            inc2.failureCount = 1 ∧ inc2.id ≠ inc.id := by
  have hget := getOpenIncident_of_singleton db r.targetId inc hsing
  have hincmem : inc ∈ db.incidents :=
    (List.mem_filter.mp (by rw [openIncidents] at hsing; rw [hsing]; exact
      List.mem_singleton_self _)).1
  have hbr := handleResult_success_some cfg env now db r inc hsucc hget
  refine ⟨?_, ?_, ?_, ?_, ?_⟩
  · rw [hbr]
    have : (fun i => if i.id == inc.id then
        { i with status := IncStatus.resolved, resolvedAt := some now }
      else i) inc =
        { inc with status := IncStatus.resolved, resolvedAt := some now } := by
      simp
    exact this ▸ List.mem_map_of_mem _ hincmem
  · rw [hbr]
    refine List.eq_nil_iff_forall_not_mem.mpr (fun j hj => ?_)
    obtain ⟨hjm, hjid⟩ :=
      openIncidents_resolve_superset db now inc.id r.targetId j hj
    rw [hsing] at hjm
    simp at hjm
    rw [hjm] at hjid
    exact hjid rfl
  · intro a ok hmem
    rw [hbr] at hmem
    rcases List.mem_cons.mp hmem with hmem | hmem
    · exact Event.noConfusion hmem
    · unfold sendRecoveryAlert sendSlack at hmem
      split_ifs at hmem <;> simp at hmem
      obtain ⟨ha, -⟩ := hmem
      subst ha
      exact ⟨rfl, rfl⟩
  · intro db0 j cfg0 env0 now0 r0 hwf0 hj hjres
    exact resolved_preserved cfg0 env0 now0 db0 r0 hwf0 j hj hjres
  · intro now2 r2 h1 h2
    have hclean : openIncidents (handleResult cfg env now db r).1 r.targetId = [] := by
      rw [hbr]
      refine List.eq_nil_iff_forall_not_mem.mpr (fun j hj => ?_)
      obtain ⟨hjm, hjid⟩ :=
        openIncidents_resolve_superset db now inc.id r.targetId j hj
      rw [hsing] at hjm
      simp at hjm
      rw [hjm] at hjid
      exact hjid rfl
    have hfc := handleResult_fail_clean cfg env now2
      (handleResult cfg env now db r).1 r2 h1 (by rw [h2]; exact hclean)
    have hnext : (handleResult cfg env now db r).1.nextId = db.nextId := by
      rw [hbr]
      rfl
    have hidlt : inc.id < db.nextId := hwf.1 inc hincmem
    refine ⟨_, by rw [← h2]; exact getOpenIncident_of_singleton _ _ _ hfc.1, ?_, ?_⟩
    · rw [applyValidMarks_eq]
    · rw [applyValidMarks_eq]
      simp only
      rw [hnext]
      omega

/-- Witness for C4 on a concrete one-open-incident store. -/
theorem claim_C4_witness :
    { incA with status := IncStatus.resolved, resolvedAt := some 9 } ∈
      (handleResult cfgScenario envAllOk 9
        { incidents := [incA], nextId := 2 } rOkAll).1.incidents := by
  have h := claim_C4 cfgScenario envAllOk 9
    { incidents := [incA], nextId := 2 } rOkAll incA
    (by constructor
        · intro i hi
          simp at hi
          rw [hi]
          decide
        · decide)
    (by decide)
    rfl
  exact h.1

/-! ## Lemmas: counting notification sends -/

theorem countSends_nil (ch : Channel) (k : AKind) :
    countSends [] ch k = 0 := rfl

theorem countSends_commit_cons (i : Nat) (ck : CommitKind) (evs : List Event)
    (ch : Channel) (k : AKind) :
    countSends (Event.commit i ck :: evs) ch k = countSends evs ch k := by
  simp [countSends, List.countP_cons]

theorem countSends_send_cons (a : Action) (ok : Bool) (evs : List Event)
    (ch : Channel) (k : AKind) :
    countSends (Event.send a ok :: evs) ch k =
      countSends evs ch k + (if a.channel = ch ∧ a.kind = k then 1 else 0) := by
  unfold countSends
  rw [List.countP_cons]
  congr 1
  by_cases h1 : a.channel = ch <;> by_cases h2 : a.kind = k <;> simp [h1, h2]

theorem countSends_append (l1 l2 : List Event) (ch : Channel) (k : AKind) :
    countSends (l1 ++ l2) ch k = countSends l1 ch k + countSends l2 ch k := by
  simp [countSends, List.countP_append]

theorem countSends_markChannels (db : DB) (incId : Nat) (cs : List String)
    (ch : Channel) (k : AKind) :
    countSends (markChannels db incId cs).2 ch k = 0 := by
  unfold countSends
  rw [List.countP_eq_zero]
  intro e he
  obtain ⟨c, hc, -⟩ := markChannels_events cs db incId e he
  subst hc
  simp

theorem sendEscalation_count_email (cfg : AlertConfig) (env : SendEnv)
    (r : CheckResult) (fc : Nat) :
    countSends (sendEscalationAlert cfg env r fc) Channel.email
        AKind.escalation =
      if fc = cfg.emailThreshold ∧ r.alertChannels.contains "email" = true ∧
          cfg.emailEnabled = true then 1 else 0 := by
  have hz : countSends
      (if (fc == cfg.smsThreshold && r.alertChannels.contains "sms"
          && cfg.smsEnabled) = true then
        [Event.send
          { channel := Channel.sms, kind := AKind.escalation
            failureCount := fc }
          (env { channel := Channel.sms, kind := AKind.escalation
                 failureCount := fc })]
      else []) Channel.email AKind.escalation = 0 := by
    split_ifs
    · rw [countSends_send_cons, countSends_nil,
        if_neg (fun hcon => Channel.noConfusion hcon.1)]
    · rfl
  unfold sendEscalationAlert
  rw [countSends_append, hz]
  by_cases h1 : (fc == cfg.emailThreshold && r.alertChannels.contains "email"
      && cfg.emailEnabled) = true
  · have hp := h1
    simp only [Bool.and_eq_true, beq_iff_eq] at hp
    rw [if_pos h1, countSends_send_cons, countSends_nil,
      if_pos ⟨rfl, rfl⟩, if_pos ⟨hp.1.1, hp.1.2, hp.2⟩]
  · rw [if_neg h1, countSends_nil,
      if_neg (fun hcon => h1 (by rw [hcon.1, hcon.2.1, hcon.2.2]; simp))]

theorem sendEscalation_count_sms (cfg : AlertConfig) (env : SendEnv)
    (r : CheckResult) (fc : Nat) :
    countSends (sendEscalationAlert cfg env r fc) Channel.sms
        AKind.escalation =
      if fc = cfg.smsThreshold ∧ r.alertChannels.contains "sms" = true ∧
          cfg.smsEnabled = true then 1 else 0 := by
  have hz : countSends
      (if (fc == cfg.emailThreshold && r.alertChannels.contains "email"
          && cfg.emailEnabled) = true then
        [Event.send
          { channel := Channel.email, kind := AKind.escalation
            failureCount := fc }
          (env { channel := Channel.email, kind := AKind.escalation
                 failureCount := fc })]
      else []) Channel.sms AKind.escalation = 0 := by
    split_ifs
    · rw [countSends_send_cons, countSends_nil,
        if_neg (fun hcon => Channel.noConfusion hcon.1)]
    · rfl
  unfold sendEscalationAlert
  rw [countSends_append, hz]
  by_cases h1 : (fc == cfg.smsThreshold && r.alertChannels.contains "sms"
      && cfg.smsEnabled) = true
  · have hp := h1
    simp only [Bool.and_eq_true, beq_iff_eq] at hp
    rw [if_pos h1, countSends_send_cons, countSends_nil,
      if_pos ⟨rfl, rfl⟩, if_pos ⟨hp.1.1, hp.1.2, hp.2⟩]
  · rw [if_neg h1, countSends_nil,
      if_neg (fun hcon => h1 (by rw [hcon.1, hcon.2.1, hcon.2.2]; simp))]

theorem sendEscalation_count_other (cfg : AlertConfig) (env : SendEnv)
    (r : CheckResult) (fc : Nat) (ch : Channel) (k : AKind)
    (hk : k ≠ AKind.escalation) :
    countSends (sendEscalationAlert cfg env r fc) ch k = 0 := by
  have h1 : ∀ (a : Action) (ok : Bool), a.kind = AKind.escalation →
      countSends [Event.send a ok] ch k = 0 := by
    intro a ok ha
    rw [countSends_send_cons, countSends_nil,
      if_neg (fun hcon => hk (ha ▸ hcon.2.symm))]
  unfold sendEscalationAlert
  rw [countSends_append]
  split_ifs <;> simp [h1, countSends_nil]

theorem sendInitial_count_slack (cfg : AlertConfig) (env : SendEnv)
    (r : CheckResult) :
    countSends (sendInitialAlert cfg env r) Channel.slack AKind.initial =
      if r.alertChannels.contains "slack" = true ∧ cfg.slackEnabled = true
      then 1 else 0 := by
  unfold sendInitialAlert sendSlack
  by_cases h1 : r.alertChannels.contains "slack" = true
  · rw [if_pos h1]
    by_cases h2 : cfg.slackEnabled = true
    · rw [if_pos h2, countSends_send_cons, countSends_nil,
        if_pos ⟨rfl, rfl⟩, if_pos ⟨h1, h2⟩]
    · rw [if_neg h2, countSends_nil, if_neg (fun hcon => h2 hcon.2)]
  · rw [if_neg h1, countSends_nil, if_neg (fun hcon => h1 hcon.1)]

theorem sendInitial_count_other (cfg : AlertConfig) (env : SendEnv)
    (r : CheckResult) (ch : Channel) (k : AKind) (hk : k ≠ AKind.initial) :
    countSends (sendInitialAlert cfg env r) ch k = 0 := by
  have h1 : ∀ (a : Action) (ok : Bool), a.kind = AKind.initial →
      countSends [Event.send a ok] ch k = 0 := by
    intro a ok ha
    rw [countSends_send_cons, countSends_nil,
      if_neg (fun hcon => hk (ha ▸ hcon.2.symm))]
  unfold sendInitialAlert sendSlack
  split_ifs <;> simp [h1, countSends_nil]

/-! ## Lemmas: escalations across a run of identical failures -/

theorem runEvents_zero (cfg : AlertConfig) (env : SendEnv) (r : CheckResult)
    (db : DB) : runEvents cfg env r db 0 = [] := rfl

theorem runEvents_succ (cfg : AlertConfig) (env : SendEnv) (r : CheckResult)
    (db : DB) (n : Nat) :
    runEvents cfg env r db (n + 1) =
      (handleResult cfg env 0 db r).2 ++
        runEvents cfg env r (handleResult cfg env 0 db r).1 n := rfl

/-- Escalation sends of a channel over `n` further failures on a store
already holding one open incident: exactly one iff the channel's condition
holds and its threshold falls inside the covered failure-count window. -/
theorem runEvents_escal_singleton (cfg : AlertConfig) (env : SendEnv)
    (r : CheckResult) (hfail : r.status ≠ Status.success)
    (ch : Channel) (thr : Nat) (cond : Prop) [Decidable cond]
    (hstep : ∀ fc, countSends (sendEscalationAlert cfg env r fc) ch
        AKind.escalation = if fc = thr ∧ cond then 1 else 0) :
    ∀ (n : Nat) (db : DB) (inc : Incident),
      openIncidents db r.targetId = [inc] →
      countSends (runEvents cfg env r db n) ch AKind.escalation =
        if cond ∧ inc.failureCount < thr ∧ thr ≤ inc.failureCount + n
        then 1 else 0 := by
  intro n
  induction n with
  | zero =>
      intro db inc hsing
      rw [runEvents_zero, countSends_nil, if_neg]
      rintro ⟨-, h1, h2⟩
      omega
  | succ n ih =>
      intro db inc hsing
      have hget := getOpenIncident_of_singleton db r.targetId inc hsing
      have hbr := handleResult_fail_some cfg env 0 db r inc hfail hget
      have hnextsing :=
        (handleResult_fail_singleton cfg env 0 db r inc hfail hsing).1
      have hstepcount : countSends (handleResult cfg env 0 db r).2 ch
          AKind.escalation =
          if inc.failureCount + 1 = thr ∧ cond then 1 else 0 := by
        rw [hbr]
        dsimp only
        rw [countSends_commit_cons, hstep]
      have hrest : countSends
          (runEvents cfg env r (handleResult cfg env 0 db r).1 n) ch
          AKind.escalation =
          if cond ∧ inc.failureCount + 1 < thr ∧
              thr ≤ inc.failureCount + 1 + n then 1 else 0 := by
        have := ih (handleResult cfg env 0 db r).1 _ hnextsing
        simpa using this
      rw [runEvents_succ, countSends_append, hstepcount, hrest]
      by_cases hc : cond
      · simp only [hc, true_and, and_true]
        split_ifs <;> omega
      · simp [hc]

/-- Escalation sends over a run of `n` identical failures from a clean
store: exactly one iff the channel's condition holds and its threshold is
at least 2 and at most `n`. -/
theorem runEvents_escal_clean (cfg : AlertConfig) (env : SendEnv)
    (r : CheckResult) (hfail : r.status ≠ Status.success)
    (ch : Channel) (thr : Nat) (cond : Prop) [Decidable cond]
    (hstep : ∀ fc, countSends (sendEscalationAlert cfg env r fc) ch
        AKind.escalation = if fc = thr ∧ cond then 1 else 0)
    (n : Nat) (db : DB) (hclean : openIncidents db r.targetId = []) :
    countSends (runEvents cfg env r db n) ch AKind.escalation =
      if cond ∧ 2 ≤ thr ∧ thr ≤ n then 1 else 0 := by
  match n with
  | 0 =>
      rw [runEvents_zero, countSends_nil, if_neg]
      rintro ⟨-, h1, h2⟩
      omega
  | n + 1 =>
      have hget := getOpenIncident_of_empty db r.targetId hclean
      have hbr := handleResult_fail_none cfg env 0 db r hfail hget
      have hsing := (handleResult_fail_clean cfg env 0 db r hfail hclean).1
      have hstepcount : countSends (handleResult cfg env 0 db r).2 ch
          AKind.escalation = 0 := by
        rw [hbr]
        dsimp only
        rw [countSends_commit_cons, countSends_append,
          sendInitial_count_other cfg env r ch AKind.escalation
            (fun h => AKind.noConfusion h),
          countSends_markChannels]
      have hrest := runEvents_escal_singleton cfg env r hfail ch thr cond
        hstep n (handleResult cfg env 0 db r).1 _ hsing
      rw [runEvents_succ, countSends_append, hstepcount, hrest,
        applyValidMarks_eq]
      simp only
      by_cases hc : cond
      · simp only [hc, true_and]
        split_ifs <;> omega
      · simp [hc]

/-- No initial alert is sent by the continuation steps of a failure run
(the initial send happens only at incident creation). -/
theorem runEvents_initial_singleton (cfg : AlertConfig) (env : SendEnv)
    (r : CheckResult) (hfail : r.status ≠ Status.success) :
    ∀ (n : Nat) (db : DB) (inc : Incident),
      openIncidents db r.targetId = [inc] →
      countSends (runEvents cfg env r db n) Channel.slack AKind.initial = 0 := by
  intro n
  induction n with
  | zero => intro db inc hsing; rfl
  | succ n ih =>
      intro db inc hsing
      have hget := getOpenIncident_of_singleton db r.targetId inc hsing
      have hbr := handleResult_fail_some cfg env 0 db r inc hfail hget
      have hnextsing :=
        (handleResult_fail_singleton cfg env 0 db r inc hfail hsing).1
      rw [runEvents_succ, countSends_append, ih _ _ hnextsing, hbr]
      dsimp only
      rw [countSends_commit_cons,
        sendEscalation_count_other cfg env r _ Channel.slack AKind.initial
          (fun h => AKind.noConfusion h)]

/-- Exactly one initial alert over a nonempty failure run from a clean
store, iff slack is listed and enabled. -/
theorem runEvents_initial_clean (cfg : AlertConfig) (env : SendEnv)
    (r : CheckResult) (hfail : r.status ≠ Status.success)
    (n : Nat) (hn : 1 ≤ n) (db : DB)
    (hclean : openIncidents db r.targetId = []) :
    countSends (runEvents cfg env r db n) Channel.slack AKind.initial =
      if r.alertChannels.contains "slack" = true ∧ cfg.slackEnabled = true
      then 1 else 0 := by
  match n, hn with
  | n + 1, _ =>
      have hget := getOpenIncident_of_empty db r.targetId hclean
      have hbr := handleResult_fail_none cfg env 0 db r hfail hget
      have hsing := (handleResult_fail_clean cfg env 0 db r hfail hclean).1
      rw [runEvents_succ, countSends_append,
        runEvents_initial_singleton cfg env r hfail n _ _ hsing, hbr]
      dsimp only
      rw [countSends_commit_cons, countSends_append,
        sendInitial_count_slack, countSends_markChannels]
      omega

/-! ## Lemmas: the state after k identical failures -/

theorem iterFail_eq_runDB (cfg : AlertConfig) (env : SendEnv)
    (r : CheckResult) :
    ∀ (n : Nat) (db : DB),
      iterFail cfg env r n db =
        runDB cfg env (List.replicate n (0, r)) db := by
  intro n
  induction n with
  | zero => intro db; rfl
  | succ n ih =>
      intro db
      rw [show iterFail cfg env r (n + 1) db =
          iterFail cfg env r n (handleResult cfg env 0 db r).1 from rfl,
        ih, List.replicate_succ, runDB_cons]

theorem iterFail_singleton (cfg : AlertConfig) (env : SendEnv)
    (r : CheckResult) (db : DB)
    (hfail : r.status ≠ Status.success)
    (hclean : openIncidents db r.targetId = [])
    (n : Nat) (hn : 1 ≤ n) :
    ∃ inc, openIncidents (iterFail cfg env r n db) r.targetId = [inc] ∧
      inc.failureCount = n := by
  obtain ⟨m, rfl⟩ : ∃ m, n = m + 1 := ⟨n - 1, by omega⟩
  rw [iterFail_eq_runDB, List.replicate_succ, runDB_cons]
  have hstep := handleResult_fail_clean cfg env 0 db r hfail hclean
  obtain ⟨inc2, h2, -, hcnt, -⟩ := runDB_fail_singleton cfg env r.targetId
    (List.replicate m (0, r)) _ _
    (by
      intro p hp
      have := List.eq_of_mem_replicate hp
      rw [this]
      exact ⟨hfail, rfl⟩)
    hstep.1
  refine ⟨inc2, h2, ?_⟩
  rw [hcnt, applyValidMarks_eq]
  simp
  omega

/-- C2: during a run of identical consecutive failures from a clean store,
the k-th step attempts the email (resp. sms) escalation exactly when `k`
equals that channel's threshold, the channel is listed and enabled, and
`k ≥ 2` (the first step sends only the initial alert); over the whole run
each escalation is attempted exactly once, when the failure count passes
through the threshold, and the initial alert exactly once, at count 1. -/
theorem claim_C2 (cfg : AlertConfig) (env : SendEnv) (r : CheckResult)
    (db : DB)
    (hfail : r.status ≠ Status.success)
    (hclean : openIncidents db r.targetId = []) :
    (∀ k, 1 ≤ k →
      (countSends (stepEvents cfg env r db k) Channel.email
          AKind.escalation =
        if k = cfg.emailThreshold ∧ 2 ≤ k ∧
            r.alertChannels.contains "email" = true ∧ cfg.emailEnabled = true
        then 1 else 0) ∧
      (countSends (stepEvents cfg env r db k) Channel.sms AKind.escalation =
        if k = cfg.smsThreshold ∧ 2 ≤ k ∧
            r.alertChannels.contains "sms" = true ∧ cfg.smsEnabled = true
        then 1 else 0) ∧
      (countSends (stepEvents cfg env r db k) Channel.slack AKind.initial =
        if k = 1 ∧ r.alertChannels.contains "slack" = true ∧
            cfg.slackEnabled = true then 1 else 0)) ∧
      (∀ n, countSends (runEvents cfg env r db n) Channel.email
          AKind.escalation =
        if r.alertChannels.contains "email" = true ∧ cfg.emailEnabled = true ∧
            2 ≤ cfg.emailThreshold ∧ cfg.emailThreshold ≤ n
        then 1 else 0) ∧
      (∀ n, countSends (runEvents cfg env r db n) Channel.sms
          AKind.escalation =
        if r.alertChannels.contains "sms" = true ∧ cfg.smsEnabled = true ∧
            2 ≤ cfg.smsThreshold ∧ cfg.smsThreshold ≤ n
        then 1 else 0) ∧
      ∀ n, 1 ≤ n →
        countSends (runEvents cfg env r db n) Channel.slack AKind.initial =
          if r.alertChannels.contains "slack" = true ∧
              cfg.slackEnabled = true then 1 else 0 := by
  refine ⟨?_, ?_, ?_, ?_⟩
  · intro k hk
    match k, hk with
    | 1, _ =>
        have hget := getOpenIncident_of_empty db r.targetId hclean
        have hbr := handleResult_fail_none cfg env 0 db r hfail hget
        have hb : stepEvents cfg env r db 1 = (handleResult cfg env 0 db r).2 :=
          rfl
        refine ⟨?_, ?_, ?_⟩
        · rw [hb, hbr]
          dsimp only
          rw [countSends_commit_cons, countSends_append,
            sendInitial_count_other cfg env r Channel.email AKind.escalation
              (fun h => AKind.noConfusion h),
            countSends_markChannels, if_neg]
          rintro ⟨-, h2, -⟩
          omega
        · rw [hb, hbr]
          dsimp only
          rw [countSends_commit_cons, countSends_append,
            sendInitial_count_other cfg env r Channel.sms AKind.escalation
              (fun h => AKind.noConfusion h),
            countSends_markChannels, if_neg]
          rintro ⟨-, h2, -⟩
          omega
        · rw [hb, hbr]
          dsimp only
          rw [countSends_commit_cons, countSends_append,
            sendInitial_count_slack, countSends_markChannels]
          rw [Nat.add_zero]
          exact if_congr (by tauto) rfl rfl
    | m + 2, _ =>
        obtain ⟨inc, hsing, hcnt⟩ := iterFail_singleton cfg env r db hfail
          hclean (m + 1) (by omega)
        have hget := getOpenIncident_of_singleton _ _ _ hsing
        have hbr := handleResult_fail_some cfg env 0
          (iterFail cfg env r (m + 1) db) r inc hfail hget
        have hb : stepEvents cfg env r db (m + 2) =
            (handleResult cfg env 0 (iterFail cfg env r (m + 1) db) r).2 := rfl
        have h2k : 2 ≤ m + 2 := by omega
        refine ⟨?_, ?_, ?_⟩
        · rw [hb, hbr]
          dsimp only
          rw [countSends_commit_cons, sendEscalation_count_email, hcnt]
          exact if_congr (by
            constructor
            · rintro ⟨h1, h2⟩
              exact ⟨h1, h2k, h2⟩
            · rintro ⟨h1, -, h2⟩
              exact ⟨h1, h2⟩) rfl rfl
        · rw [hb, hbr]
          dsimp only
          rw [countSends_commit_cons, sendEscalation_count_sms, hcnt]
          exact if_congr (by
            constructor
            · rintro ⟨h1, h2⟩
              exact ⟨h1, h2k, h2⟩
            · rintro ⟨h1, -, h2⟩
              exact ⟨h1, h2⟩) rfl rfl
        · rw [hb, hbr]
          dsimp only
          rw [countSends_commit_cons,
            sendEscalation_count_other cfg env r _ Channel.slack AKind.initial
              (fun h => AKind.noConfusion h), if_neg]
          rintro ⟨h1, -⟩
          omega
  · intro n
    rw [runEvents_escal_clean cfg env r hfail Channel.email cfg.emailThreshold
      _ (sendEscalation_count_email cfg env r) n db hclean]
    exact if_congr (by tauto) rfl rfl
  · intro n
    rw [runEvents_escal_clean cfg env r hfail Channel.sms cfg.smsThreshold
      _ (sendEscalation_count_sms cfg env r) n db hclean]
    exact if_congr (by tauto) rfl rfl
  · intro n hn
    exact runEvents_initial_clean cfg env r hfail n hn db hclean

/-- C2 fails as literally stated for threshold T = 1: with email
`escalate_after = 1`, email listed and enabled, three consecutive
failures make `failure_count` pass through 1 (at creation) and reach 3,
yet no email escalation is ever attempted — the escalation path runs only
from the second consecutive failure on. -/
theorem claim_C2_counterexample :
    countSends (runEvents cfgThreshold1 envAllOk rFailAll DB.empty 3)
        Channel.email AKind.escalation = 0 ∧
      cfgThreshold1.emailThreshold = 1 ∧
      cfgThreshold1.emailEnabled = true ∧
      rFailAll.alertChannels.contains "email" = true ∧
      (∃ inc, getOpenIncident
          (iterFail cfgThreshold1 envAllOk rFailAll 3 DB.empty) 1 =
            some inc ∧ inc.failureCount = 3) := by
  refine ⟨by decide, rfl, rfl, by decide, ?_⟩
  exact ⟨{ id := 1, targetId := 1, startedAt := 0, status := IncStatus.opened
           failureCount := 3, lastCheckId := 7, resolvedAt := none
           slackAlerted := true, emailAlerted := true, smsAlerted := true },
    by decide, rfl⟩

/-- Witness for C2: the spec scenario — thresholds 3 (email) and 5 (sms),
all channels listed and enabled, five consecutive failures: exactly one
email escalation, one sms escalation, one initial alert. -/
theorem claim_C2_witness :
    countSends (runEvents cfgScenario envAllOk rFailAll DB.empty 5)
        Channel.email AKind.escalation = 1 ∧
      countSends (runEvents cfgScenario envAllOk rFailAll DB.empty 5)
        Channel.sms AKind.escalation = 1 ∧
      countSends (runEvents cfgScenario envAllOk rFailAll DB.empty 5)
        Channel.slack AKind.initial = 1 := by
  have h := claim_C2 cfgScenario envAllOk rFailAll DB.empty (by decide)
    (by decide)
  refine ⟨?_, ?_, ?_⟩
  · rw [h.2.1 5, if_pos (by decide)]
  · rw [h.2.2.1 5, if_pos (by decide)]
  · rw [h.2.2.2 5 (by decide), if_pos (by decide)]

/-! ## Lemmas: which sends each alerter entry point can emit -/

theorem mem_sendInitial (cfg : AlertConfig) (env : SendEnv) (r : CheckResult)
    (e : Event) (he : e ∈ sendInitialAlert cfg env r) :
    e = Event.send
        { channel := Channel.slack, kind := AKind.initial, failureCount := 1 }
        (env { channel := Channel.slack, kind := AKind.initial
               failureCount := 1 }) ∧
      r.alertChannels.contains "slack" = true ∧ cfg.slackEnabled = true := by
  unfold sendInitialAlert sendSlack at he
  split_ifs at he with h1 h2
  · simp only [List.mem_singleton] at he
    exact ⟨he, h1, h2⟩
  · simp at he
  · simp at he

theorem mem_sendRecovery (cfg : AlertConfig) (env : SendEnv)
    (r : CheckResult) (inc : Incident) (e : Event)
    (he : e ∈ sendRecoveryAlert cfg env r inc) :
    e = Event.send
        { channel := Channel.slack, kind := AKind.recovery
          failureCount := inc.failureCount }
        (env { channel := Channel.slack, kind := AKind.recovery
               failureCount := inc.failureCount }) ∧
      r.alertChannels.contains "slack" = true ∧ cfg.slackEnabled = true := by
  unfold sendRecoveryAlert sendSlack at he
  split_ifs at he with h1 h2
  · simp only [List.mem_singleton] at he
    exact ⟨he, h1, h2⟩
  · simp at he
  · simp at he

theorem mem_sendEscalation (cfg : AlertConfig) (env : SendEnv)
    (r : CheckResult) (fc : Nat) (e : Event)
    (he : e ∈ sendEscalationAlert cfg env r fc) :
    (e = Event.send
        { channel := Channel.email, kind := AKind.escalation
          failureCount := fc }
        (env { channel := Channel.email, kind := AKind.escalation
               failureCount := fc }) ∧
      fc = cfg.emailThreshold ∧ r.alertChannels.contains "email" = true ∧
        cfg.emailEnabled = true) ∨
    (e = Event.send
        { channel := Channel.sms, kind := AKind.escalation
          failureCount := fc }
        (env { channel := Channel.sms, kind := AKind.escalation
               failureCount := fc }) ∧
      fc = cfg.smsThreshold ∧ r.alertChannels.contains "sms" = true ∧
        cfg.smsEnabled = true) := by
  unfold sendEscalationAlert at he
  rw [List.mem_append] at he
  rcases he with he | he
  · split_ifs at he with h
    · simp only [List.mem_singleton] at he
      simp only [Bool.and_eq_true, beq_iff_eq] at h
      exact Or.inl ⟨he, h.1.1, h.1.2, h.2⟩
    · simp at he
  · split_ifs at he with h
    · simp only [List.mem_singleton] at he
      simp only [Bool.and_eq_true, beq_iff_eq] at h
      exact Or.inr ⟨he, h.1.1, h.1.2, h.2⟩
    · simp at he

/-- Each transition's event list is empty, or a single incident-mutation
commit followed by events that are not incident mutations, with no send
attempt at the head. -/
theorem handleResult_events_structure (cfg : AlertConfig) (env : SendEnv)
    (now : Nat) (db : DB) (r : CheckResult) :
    (handleResult cfg env now db r).2 = [] ∨
      ∃ hd tl, (handleResult cfg env now db r).2 = hd :: tl ∧
        isSendEvent hd = false ∧ ∀ e ∈ tl, isIncMutation e = false := by
  by_cases hs : r.status = Status.success
  · match hi : getOpenIncident db r.targetId with
    | some inc =>
        rw [handleResult_success_some cfg env now db r inc hs hi]
        refine Or.inr ⟨_, _, rfl, rfl, ?_⟩
        intro e he
        obtain ⟨rfl, -⟩ := mem_sendRecovery cfg env r inc e he
        rfl
    | none =>
        rw [handleResult_success_none cfg env now db r hs hi]
        exact Or.inl rfl
  · match hi : getOpenIncident db r.targetId with
    | some inc =>
        rw [handleResult_fail_some cfg env now db r inc hs hi]
        refine Or.inr ⟨_, _, rfl, rfl, ?_⟩
        intro e he
        rcases mem_sendEscalation cfg env r _ e he with ⟨rfl, -⟩ | ⟨rfl, -⟩ <;>
          rfl
    | none =>
        rw [handleResult_fail_none cfg env now db r hs hi]
        refine Or.inr ⟨_, _, rfl, rfl, ?_⟩
        intro e he
        rcases List.mem_append.mp he with he | he
        · obtain ⟨rfl, -⟩ := mem_sendInitial cfg env r e he
          rfl
        · obtain ⟨c, rfl, -⟩ := markChannels_events _ _ _ e he
          rfl

/-- In an event list of the shape guaranteed by
`handleResult_events_structure`, every incident mutation commit precedes
every send attempt. -/
theorem mutation_before_sends (evs : List Event)
    (h : evs = [] ∨ ∃ hd tl, evs = hd :: tl ∧ isSendEvent hd = false ∧
      ∀ e ∈ tl, isIncMutation e = false) :
    ∀ i j (hi : i < evs.length) (hj : j < evs.length),
      isIncMutation (evs.get ⟨i, hi⟩) = true →
      isSendEvent (evs.get ⟨j, hj⟩) = true → i < j := by
  rcases h with rfl | ⟨hd, tl, rfl, hhd, htl⟩
  · intro i j hi
    exact absurd hi (by simp)
  · intro i j hi hj hmut hsend
    match j, hj, hsend with
    | 0, hj, hsend =>
        exfalso
        rw [show (hd :: tl).get ⟨0, hj⟩ = hd from rfl, hhd] at hsend
        exact Bool.noConfusion hsend
    | j2 + 1, hj, hsend =>
        match i, hi, hmut with
        | 0, hi, hmut => omega
        | i2 + 1, hi, hmut =>
            exfalso
            have hi2 : i2 < tl.length := by
              simpa using hi
            rw [show (hd :: tl).get ⟨i2 + 1, hi⟩ = tl.get ⟨i2, hi2⟩ from rfl]
              at hmut
            rw [htl _ (tl.get_mem i2 hi2)] at hmut
            exact Bool.noConfusion hmut

/-- C6: the committed store state of a transition does not depend on the
transport outcomes; the incident mutation commit precedes every send
attempt in program order; and on incident creation the alerted markings
record exactly the (valid) configured channels, regardless of the
environment. -/
theorem claim_C6 (cfg : AlertConfig) (now : Nat) (db : DB) (r : CheckResult) :
    (∀ env env' : SendEnv,
      (handleResult cfg env now db r).1 = (handleResult cfg env' now db r).1) ∧
      (∀ env : SendEnv, ∀ i j
          (hi : i < (handleResult cfg env now db r).2.length)
          (hj : j < (handleResult cfg env now db r).2.length),
        isIncMutation ((handleResult cfg env now db r).2.get ⟨i, hi⟩) = true →
        isSendEvent ((handleResult cfg env now db r).2.get ⟨j, hj⟩) = true →
        i < j) ∧
      ∀ env : SendEnv, r.status ≠ Status.success →
        getOpenIncident db r.targetId = none →
        ∃ inc2 ∈ (handleResult cfg env now db r).1.incidents,
          inc2.id = db.nextId ∧ inc2.failureCount = 1 ∧
          inc2.slackAlerted = r.alertChannels.contains "slack" ∧
          inc2.emailAlerted = r.alertChannels.contains "email" ∧
          inc2.smsAlerted = r.alertChannels.contains "sms" := by
  refine ⟨?_, ?_, ?_⟩
  · intro env env'
    by_cases hs : r.status = Status.success
    · match hi : getOpenIncident db r.targetId with
      | some inc =>
          rw [handleResult_success_some cfg env now db r inc hs hi,
            handleResult_success_some cfg env' now db r inc hs hi]
      | none =>
          rw [handleResult_success_none cfg env now db r hs hi,
            handleResult_success_none cfg env' now db r hs hi]
    · match hi : getOpenIncident db r.targetId with
      | some inc =>
          rw [handleResult_fail_some cfg env now db r inc hs hi,
            handleResult_fail_some cfg env' now db r inc hs hi]
      | none =>
          rw [handleResult_fail_none cfg env now db r hs hi,
            handleResult_fail_none cfg env' now db r hs hi]
  · intro env
    exact mutation_before_sends _ (handleResult_events_structure cfg env now db r)
  · intro env hs hi
    rw [handleResult_fail_none cfg env now db r hs hi]
    refine ⟨applyValidMarks
      { id := db.nextId, targetId := r.targetId, startedAt := now
        status := IncStatus.opened, failureCount := 1
        lastCheckId := r.checkId, resolvedAt := none
        slackAlerted := false, emailAlerted := false, smsAlerted := false }
      r.alertChannels, ?_, ?_, ?_, ?_, ?_, ?_⟩
    · rw [(markChannels_store _ _ _).1]
      refine List.mem_map.mpr
        ⟨{ id := db.nextId, targetId := r.targetId, startedAt := now
           status := IncStatus.opened, failureCount := 1
           lastCheckId := r.checkId, resolvedAt := none
           slackAlerted := false, emailAlerted := false
           smsAlerted := false }, ?_, ?_⟩
      · simp [createIncident]
      · simp
    · rw [applyValidMarks_eq]
    · rw [applyValidMarks_eq]
    · rw [applyValidMarks_eq]
      simp
    · rw [applyValidMarks_eq]
      simp
    · rw [applyValidMarks_eq]
      simp

/-- Witness for C6: the committed store after a failure is identical under
an all-success transport and an all-failing transport. -/
theorem claim_C6_witness :
    (handleResult cfgScenario envAllOk 0 DB.empty rFailAll).1 =
      (handleResult cfgScenario (fun _ => false) 0 DB.empty rFailAll).1 :=
  (claim_C6 cfgScenario 0 DB.empty rFailAll).1 envAllOk (fun _ => false)

/-- C10: initial and recovery notifications go to Slack only, and only
when `'slack'` is among the result's channels (none at creation or
resolution otherwise); email and sms sends arise only from the escalation
path, at their thresholds, when listed and enabled. -/
theorem claim_C10 (cfg : AlertConfig) (env : SendEnv) :
    (∀ r e, e ∈ sendInitialAlert cfg env r →
      (∃ ok, e = Event.send
        { channel := Channel.slack, kind := AKind.initial, failureCount := 1 }
        ok) ∧ r.alertChannels.contains "slack" = true) ∧
      (∀ r inc e, e ∈ sendRecoveryAlert cfg env r inc →
        (∃ ok, e = Event.send
          { channel := Channel.slack, kind := AKind.recovery
            failureCount := inc.failureCount } ok) ∧
          r.alertChannels.contains "slack" = true) ∧
      (∀ r inc, r.alertChannels.contains "slack" = false →
        sendInitialAlert cfg env r = [] ∧
          sendRecoveryAlert cfg env r inc = []) ∧
      ∀ now db r a ok, Event.send a ok ∈ (handleResult cfg env now db r).2 →
        ((a.channel = Channel.email ∨ a.channel = Channel.sms) →
          a.kind = AKind.escalation ∧ r.status ≠ Status.success ∧
            (a.channel = Channel.email → a.failureCount = cfg.emailThreshold ∧
              r.alertChannels.contains "email" = true ∧
              cfg.emailEnabled = true) ∧
            (a.channel = Channel.sms → a.failureCount = cfg.smsThreshold ∧
              r.alertChannels.contains "sms" = true ∧
              cfg.smsEnabled = true)) ∧
        ((a.kind = AKind.initial ∨ a.kind = AKind.recovery) →
          a.channel = Channel.slack ∧
            r.alertChannels.contains "slack" = true ∧
            cfg.slackEnabled = true) := by
  refine ⟨?_, ?_, ?_, ?_⟩
  · intro r e he
    obtain ⟨rfl, h1, -⟩ := mem_sendInitial cfg env r e he
    exact ⟨⟨_, rfl⟩, h1⟩
  · intro r inc e he
    obtain ⟨rfl, h1, -⟩ := mem_sendRecovery cfg env r inc e he
    exact ⟨⟨_, rfl⟩, h1⟩
  · intro r inc h
    constructor
    · unfold sendInitialAlert
      rw [if_neg (by simpa using h)]
    · unfold sendRecoveryAlert
      rw [if_neg (by simpa using h)]
  · intro now db r a ok hmem
    by_cases hs : r.status = Status.success
    · match hi : getOpenIncident db r.targetId with
      | some inc =>
          rw [handleResult_success_some cfg env now db r inc hs hi] at hmem
          rcases List.mem_cons.mp hmem with hmem | hmem
          · exact Event.noConfusion hmem
          · obtain ⟨heq, h1, h2⟩ := mem_sendRecovery cfg env r inc _ hmem
            have ha : a = { channel := Channel.slack, kind := AKind.recovery
                            failureCount := inc.failureCount } := by
              injection heq
            subst ha
            constructor
            · rintro (h | h) <;> exact Channel.noConfusion h
            · intro _
              exact ⟨rfl, h1, h2⟩
      | none =>
          rw [handleResult_success_none cfg env now db r hs hi] at hmem
          simp at hmem
    · match hi : getOpenIncident db r.targetId with
      | some inc =>
          rw [handleResult_fail_some cfg env now db r inc hs hi] at hmem
          rcases List.mem_cons.mp hmem with hmem | hmem
          · exact Event.noConfusion hmem
          · rcases mem_sendEscalation cfg env r _ _ hmem with
              ⟨heq, hfc, h1, h2⟩ | ⟨heq, hfc, h1, h2⟩
            · have ha : a = { channel := Channel.email
                              kind := AKind.escalation
                              failureCount := inc.failureCount + 1 } := by
                injection heq
              subst ha
              constructor
              · intro _
                refine ⟨rfl, hs, fun _ => ⟨hfc, h1, h2⟩, fun h => ?_⟩
                exact absurd h (by simp)
              · rintro (h | h) <;> exact AKind.noConfusion h
            · have ha : a = { channel := Channel.sms
                              kind := AKind.escalation
                              failureCount := inc.failureCount + 1 } := by
                injection heq
              subst ha
              constructor
              · intro _
                refine ⟨rfl, hs, fun h => ?_, fun _ => ⟨hfc, h1, h2⟩⟩
                exact absurd h (by simp)
              · rintro (h | h) <;> exact AKind.noConfusion h
      | none =>
          rw [handleResult_fail_none cfg env now db r hs hi] at hmem
          rcases List.mem_cons.mp hmem with hmem | hmem
          · exact Event.noConfusion hmem
          · rcases List.mem_append.mp hmem with hmem | hmem
            · obtain ⟨heq, h1, h2⟩ := mem_sendInitial cfg env r _ hmem
              have ha : a = { channel := Channel.slack, kind := AKind.initial
                              failureCount := 1 } := by
                injection heq
              subst ha
              constructor
              · rintro (h | h) <;> exact Channel.noConfusion h
              · intro _
                exact ⟨rfl, h1, h2⟩
            · obtain ⟨c, hc, -⟩ := markChannels_events _ _ _ _ hmem
              exact Event.noConfusion hc

/-- Witness for C10: with slack absent from the channels, creation and
resolution produce no notification events. -/
theorem claim_C10_witness :
    sendInitialAlert cfgScenario envAllOk
        { rFailAll with alertChannels := ["email", "sms"] } = [] ∧
      sendRecoveryAlert cfgScenario envAllOk
        { rFailAll with alertChannels := ["email", "sms"] } incA = [] :=
  (claim_C10 cfgScenario envAllOk).2.2.1
    { rFailAll with alertChannels := ["email", "sms"] } incA (by decide)

/-- C7 fails as stated: on a store that (in violation of the invariant)
holds two open incidents for target 1, `get_open_incident` does not
signal an integrity error — it silently returns the most recently started
one (`ORDER BY started_at DESC LIMIT 1` + `fetchone`). -/
theorem claim_C7_counterexample :
    openIncidents dbTwoOpen 1 = [incA, incB] ∧
      getOpenIncident dbTwoOpen 1 = some incB := by
  constructor <;> decide

/-- C7 (amended): `get_open_incident` returns absent exactly when the
target has no open incident, and otherwise silently returns an open
incident of the target with the greatest `started_at`, even when more
than one open incident exists. -/
theorem claim_C7_amended (db : DB) (tid : Nat) :
    (getOpenIncident db tid = none ↔ openIncidents db tid = []) ∧
      ∀ inc, getOpenIncident db tid = some inc →
        inc ∈ openIncidents db tid ∧ inc.targetId = tid ∧
          inc.status = IncStatus.opened ∧
          ∀ j ∈ openIncidents db tid, j.startedAt ≤ inc.startedAt := by
  refine ⟨getOpenIncident_eq_none_iff db tid, ?_⟩
  intro inc h
  have hne : openIncidents db tid ≠ [] := by
    intro hnil
    rw [← getOpenIncident_eq_none_iff] at hnil
    rw [h] at hnil
    exact Option.noConfusion hnil
  obtain ⟨k, hk, hmem, hall⟩ := mostRecent_spec _ hne
  have hkinc : k = inc := Option.some.inj (hk.symm.trans h)
  subst hkinc
  have hm := List.mem_filter.mp hmem
  exact ⟨hmem, (isOpenFor_iff tid k).mp hm.2 |>.1,
    (isOpenFor_iff tid k).mp hm.2 |>.2, hall⟩

/-- Witness for the amended C7, on the two-open-incident store: the later
incident is returned and dominates both rows' start times. -/
theorem claim_C7_witness :
    incB ∈ openIncidents dbTwoOpen 1 ∧ incA.startedAt ≤ incB.startedAt := by
  obtain ⟨hmem, -, -, hmax⟩ :=
    (claim_C7_amended dbTwoOpen 1).2 incB (by decide)
  exact ⟨hmem, hmax incA (by decide)⟩

/-- C8 fails as stated: with a loop body whose store write fails for
target 1 only (the store remains reachable — the same body succeeds for
target 2), the run aborts at target 1 and target 2 is never attempted. -/
theorem claim_C8_counterexample :
    (runChecksLoop bodyFail1 [tgt1, tgt2] DB.empty).2 = [1] ∧
      (2 : Nat) ∉ (runChecksLoop bodyFail1 [tgt1, tgt2] DB.empty).2 ∧
      runChecksLoop bodyFail1 [tgt1, tgt2] DB.empty =
        (Except.error { msg := "disk error" }, [1]) ∧
      bodyFail1 tgt2 DB.empty = Except.ok DB.empty := by
  refine ⟨rfl, by decide, rfl, rfl⟩

/-- C8 (amended): a persistence error raised while processing one target
aborts the entire run at that target — the remaining targets are not
attempted (the loop has no per-target error isolation); when every store
write succeeds, all targets are attempted in order. -/
theorem claim_C8_amended :
    (∀ (body : Target → DB → Except PersistErr DB) (t : Target)
        (ts : List Target) (db : DB) (e : PersistErr),
      body t db = Except.error e →
      runChecksLoop body (t :: ts) db = (Except.error e, [t.id])) ∧
      ∀ (body : Target → DB → Except PersistErr DB) (ts : List Target)
        (db : DB),
        (∀ t db0, ∃ db1, body t db0 = Except.ok db1) →
        (runChecksLoop body ts db).2 = ts.map Target.id := by
  constructor
  · intro body t ts db e h
    simp only [runChecksLoop, h]
  · intro body ts
    induction ts with
    | nil => intro db _; rfl
    | cons t ts ih =>
        intro db hok
        obtain ⟨db1, h1⟩ := hok t db
        simp only [runChecksLoop, h1, List.map_cons]
        rw [ih db1 hok]

/-- Witness for the amended C8: the failing-first-target run aborts with
the error having attempted only target 1. -/
theorem claim_C8_witness :
    runChecksLoop bodyFail1 [tgt1, tgt2] DB.empty =
      (Except.error { msg := "disk error" }, [1]) := by
  have h := claim_C8_amended.1 bodyFail1 tgt1 [tgt2] DB.empty
    { msg := "disk error" } rfl
  simpa [tgt1] using h

end Watchdog
